import Mathlib

/-!
Verification of the host-side transport and updater of
`platform_external_nos_host_generic`.

The development shallowly embeds the C/C++ sources:

* `libnos_transport/transport.c` — the datagram retry layer, status
  parsing, the transport state machine `nos_call_application`;
* `citadel/updater/updater.cpp` — `try_update`, `do_update`,
  `do_change_pw` and their helpers;
* `libnos/NuggetClient.cpp` — `StatusCodeString`.

Machine integers are embedded as `Nat` with explicit `% 2^w` where
overflow or truncation matters.  The C bitwise-or of operands with
disjoint bits is embedded as `+`; the one place that re-ors a possibly
present bit (`command |= CMD_MORE_TO_COME`) is embedded by `orMore`.
Bus devices are embedded as deterministic oracles mapping the index of
the raw bus operation to the driver's response, and every embedded
function additionally returns the list of raw bus operations it
performed, so that theorems can speak about the datagrams issued.
-/

/-! ## Constants

`MAX_DEVICE_TRANSFER` is from `libnos_datagram/include/nos/device.h`;
`RETRY_COUNT` and `CRC_RETRY_COUNT` are from `transport.c`;
`NUGGET_ERROR_*` and `NUGGET_PARAM_FLASH_BLOCK` are from
`nugget/include/app_nugget.h`. -/

def MAX_DEVICE_TRANSFER : Nat := 2044

def RETRY_COUNT : Nat := 25

def CRC_RETRY_COUNT : Nat := 3

/-- Linux errno `EAGAIN` (the chip is asleep; external contract of the
datagram driver). -/
def EAGAIN : Int := 11

/-- Linux errno `ETIMEDOUT`, returned by the datagram layer on retry
exhaustion. -/
def ETIMEDOUT : Int := 110

/-- Modelled from the spec: `application.h` is not under `src/`; the
spec's §7 error-kind list and the names used by `transport.c`,
`updater.cpp` and `NuggetClient.cpp` fix the enum; the numeric values
are the conventional consecutive ones.  No claim depends on the exact
small values. -/
def APP_SUCCESS : Nat := 0

def APP_ERROR_BOGUS_ARGS : Nat := 1

def APP_ERROR_INTERNAL : Nat := 2

def APP_ERROR_TOO_MUCH : Nat := 3

def APP_ERROR_IO : Nat := 4

def APP_ERROR_RPC : Nat := 5

def APP_ERROR_CHECKSUM : Nat := 6

/-- Modelled from the spec: app-specific error bucket base
(`application.h` absent from `src/`). -/
def APP_SPECIFIC_ERROR : Nat := 131072

/-- Modelled from the spec: line-number error bucket base
(`application.h` absent from `src/`). -/
def APP_LINE_NUMBER_BASE : Nat := 1879048192

/-- Modelled from the spec: upper bound of valid app statuses
(`application.h` absent from `src/`). -/
def MAX_APP_STATUS : Nat := 2147483647

/-- From `app_nugget.h`: `NUGGET_ERROR_LOCKED = APP_SPECIFIC_ERROR`. -/
def NUGGET_ERROR_LOCKED : Nat := APP_SPECIFIC_ERROR

/-- From `app_nugget.h`: next app-specific error after LOCKED. -/
def NUGGET_ERROR_RETRY : Nat := APP_SPECIFIC_ERROR + 1

def NUGGET_PARAM_FLASH_BLOCK : Nat := 1

/-- Modelled from the spec: `config.h` defining `CHIP_FLASH_BANK_SIZE`
is absent from `src/`; the spec only says blocks are written in
fixed-size banks.  A representative bank size is fixed; no claim
depends on its value. -/
def CHIP_FLASH_BANK_SIZE : Nat := 2048

/-- Modelled from the spec: status word bit reported by the device when
a request has completed (`application.h` absent from `src/`).  The
result code occupies the remaining 31 bits, so DONE is bit 31. -/
def APP_STATUS_DONE : Nat := 2147483648

/-- Modelled from the spec: the device's idle status word. -/
def APP_STATUS_IDLE : Nat := 0

/-- Modelled from the spec: `APP_STATUS_CODE(status)` extracts the
result code, i.e. masks off the DONE bit. -/
def APP_STATUS_CODE (s : Nat) : Nat := s % 2147483648

/-- Modelled from the spec: the magic marking a current-format status
record; legacy records are detected by its absence.  The exact value is
not given by the spec and no claim depends on it. -/
def TRANSPORT_STATUS_MAGIC : Nat := 3405705229

/-- Modelled from the spec: version tag synthesised for legacy
records. -/
def TRANSPORT_LEGACY : Nat := 0

/-- Modelled from the spec: version tag of the V1 framing. -/
def TRANSPORT_V1 : Nat := 1

/-! ## Command words

Modelled from the spec §6: 32-bit command word with the app id in the
high byte, the transport flags in the next byte and a 16-bit parameter
field (`application.h` absent from `src/`).  `|` of disjoint-bit
operands is embedded as `+`. -/

def CMD_ID (a : Nat) : Nat := a % 256 * 16777216

def CMD_IS_READ : Nat := 8388608

def CMD_TRANSPORT : Nat := 4194304

def CMD_IS_DATA : Nat := 2097152

def CMD_MORE_TO_COME : Nat := 1048576

def CMD_PARAM (p : Nat) : Nat := p % 65536

/-- `CMD_SET_PARAM(cmd, p)`: replace the low 16 bits of `cmd` by `p`'s
low 16 bits. -/
def CMD_SET_PARAM (c p : Nat) : Nat := c / 65536 * 65536 + p % 65536

/-- The `CMD_MORE_TO_COME` bit (bit 20) of a command word. -/
def moreBit (c : Nat) : Nat := c / 1048576 % 2

/-- Embeds `command |= CMD_MORE_TO_COME` (the bit may already be
set). -/
def orMore (c : Nat) : Nat := if moreBit c = 1 then c else c + CMD_MORE_TO_COME

/-! ## Bytes -/

abbrev Bytes := List Nat

def le16 (b : Bytes) (i : Nat) : Nat := b.getD i 0 + 256 * b.getD (i + 1) 0

def le32 (b : Bytes) (i : Nat) : Nat := le16 b i + 65536 * le16 b (i + 2)

/-- Little-endian 2-byte serialisation. -/
def le2 (n : Nat) : Bytes := [n % 256, n / 256 % 256]

/-- Little-endian 4-byte serialisation. -/
def le4 (n : Nat) : Bytes := [n % 256, n / 256 % 256, n / 65536 % 256, n / 16777216 % 256]

/-! ## CRC-16

Modelled from the spec §4.3: `crc16.h` is absent from `src/`.  The
spec fixes only the interface (a streaming CRC-16 with `crc16` and
`crc16_update`); the CCITT polynomial with zero seed is used here.  No
claim depends on particular CRC values. -/

def crc16_step (crc : Nat) : Nat :=
  if crc / 32768 % 2 = 1 then ((crc * 2) ^^^ 4129) % 65536 else crc * 2 % 65536

def crc16_byte (crc b : Nat) : Nat :=
  let crc := crc ^^^ (b % 256 * 256)
  crc16_step (crc16_step (crc16_step (crc16_step
    (crc16_step (crc16_step (crc16_step (crc16_step crc)))))))

def crc16_update (b : Bytes) (seed : Nat) : Nat := b.foldl crc16_byte seed

def crc16 (b : Bytes) : Nat := crc16_update b 0

/-! ## SHA-1

Modelled from the spec: the updater hashes with OpenSSL's `SHA1`,
external to this repository; this is the standard FIPS 180 SHA-1 over
byte strings. -/

def w32 (x : Nat) : Nat := x % 4294967296

def rotl (n x : Nat) : Nat := (x * 2 ^ n + x / 2 ^ (32 - n)) % 4294967296

def sha1_f (t b c d : Nat) : Nat :=
  if t < 20 then (b &&& c) ||| ((b ^^^ 4294967295) &&& d)
  else if t < 40 then b ^^^ c ^^^ d
  else if t < 60 then (b &&& c) ||| (b &&& d) ||| (c &&& d)
  else b ^^^ c ^^^ d

def sha1_k (t : Nat) : Nat :=
  if t < 20 then 1518500249
  else if t < 40 then 1859775393
  else if t < 60 then 2400959708
  else 3395469782

def words_of_block : Bytes → List Nat
  | b0 :: b1 :: b2 :: b3 :: rest => (((b0 * 256 + b1) * 256 + b2) * 256 + b3) :: words_of_block rest
  | _ => []

/-- Extend the 16 schedule words by `n` more (invoked with `n = 64`);
the counter makes the recursion structural. -/
def sha1_extend : Nat → Array Nat → Array Nat
  | 0, ws => ws
  | n + 1, ws =>
    let t := ws.size
    sha1_extend n (ws.push (rotl 1
      (ws.getD (t - 3) 0 ^^^ ws.getD (t - 8) 0 ^^^ ws.getD (t - 14) 0 ^^^ ws.getD (t - 16) 0)))

/-- `n` compression rounds starting at round `t` (invoked with
`n = 80`, `t = 0`). -/
def sha1_rounds (ws : Array Nat) : Nat → Nat → Nat × Nat × Nat × Nat × Nat → Nat × Nat × Nat × Nat × Nat
  | 0, _, st => st
  | n + 1, t, (a, b, c, d, e) =>
    sha1_rounds ws n (t + 1)
      (w32 (rotl 5 a + sha1_f t b c d + e + sha1_k t + ws.getD t 0), a, rotl 30 b, c, d)

def sha1_block (h0 h1 h2 h3 h4 : Nat) (block : Bytes) : Nat × Nat × Nat × Nat × Nat :=
  let ws := sha1_extend 64 ⟨words_of_block block⟩
  let (a, b, c, d, e) := sha1_rounds ws 80 0 (h0, h1, h2, h3, h4)
  (w32 (h0 + a), w32 (h1 + b), w32 (h2 + c), w32 (h3 + d), w32 (h4 + e))

/-- Compress `n` 64-byte blocks (invoked with `n` = the exact number
of blocks of the padded message). -/
def sha1_blocks : Nat → Nat × Nat × Nat × Nat × Nat → Bytes → Nat × Nat × Nat × Nat × Nat
  | 0, st, _ => st
  | n + 1, (h0, h1, h2, h3, h4), msg =>
    sha1_blocks n (sha1_block h0 h1 h2 h3 h4 (msg.take 64)) (msg.drop 64)

def be8 (n : Nat) : Bytes :=
  [n / 72057594037927936 % 256, n / 281474976710656 % 256, n / 1099511627776 % 256,
   n / 4294967296 % 256, n / 16777216 % 256, n / 65536 % 256, n / 256 % 256, n % 256]

def be4 (n : Nat) : Bytes := [n / 16777216 % 256, n / 65536 % 256, n / 256 % 256, n % 256]

def sha1_pad (msg : Bytes) : Bytes :=
  msg ++ [128] ++ List.replicate ((120 - (msg.length + 1) % 64) % 64) 0 ++ be8 (msg.length * 8)

/-- SHA-1 digest: 20 bytes. -/
def sha1 (msg : Bytes) : Bytes :=
  let padded := sha1_pad msg
  let (h0, h1, h2, h3, h4) :=
    sha1_blocks (padded.length / 64)
      (1732584193, 4023233417, 2562383102, 271733878, 3285377520) padded
  be4 h0 ++ be4 h1 ++ be4 h2 ++ be4 h3 ++ be4 h4

/-- `compute_digest` from `updater.cpp`: the first 4 bytes of the SHA-1
digest, read as a little-endian `uint32_t` (the `memcpy`). -/
def compute_digest (msg : Bytes) : Nat := le32 (sha1 msg) 0

/-! ## The datagram bus

A raw bus operation is one `ops.read` or `ops.write` of the driver.
The device is a deterministic oracle: its response may depend on the
index of the raw operation (the number of operations performed so far)
and on the operation's command word and length/payload.  Each embedded
function also returns the trace of raw operations it performed. -/

/-- One raw bus operation, as logged. -/
inductive Op where
  | rd (command len : Nat)
  | wr (command : Nat) (payload : Bytes)
deriving DecidableEq, Repr

/-- The pluggable datagram driver (`struct nos_device_ops`): `read`
returns a negative errno or 0 together with the bytes placed in the
buffer; `write` returns a negative errno or 0. -/
structure Dev where
  read : Nat → Nat → Nat → Int × Bytes
  write : Nat → Nat → Bytes → Int

/-- The driver copies exactly `len` bytes into the caller's buffer. -/
def devReadBuf (resp : Bytes) (len : Nat) : Bytes :=
  ((resp ++ List.replicate len 0).take len).map (· % 256)

/-- The retry loop of `nos_device_write` (`transport.c:108`): attempt
the write, sleeping and retrying on `-EAGAIN`, at most `retries`
times; return `-err` on another error, 0 on success, `ETIMEDOUT` on
exhaustion. -/
def nos_device_write_loop (d : Dev) (cmd : Nat) (payload : Bytes) :
    Nat → List Op → Int × List Op
  | 0, log => (ETIMEDOUT, log)
  | r + 1, log =>
    let err := d.write log.length cmd payload
    let log := log ++ [Op.wr cmd payload]
    if err = -EAGAIN then nos_device_write_loop d cmd payload r log
    else (-err, log)

def nos_device_write (d : Dev) (cmd : Nat) (payload : Bytes) (log : List Op) :
    Int × List Op :=
  nos_device_write_loop d cmd payload RETRY_COUNT log

/-- The retry loop of `nos_device_read` (`transport.c:82`). -/
def nos_device_read_loop (d : Dev) (cmd len : Nat) :
    Nat → List Op → Int × Bytes × List Op
  | 0, log => (ETIMEDOUT, [], log)
  | r + 1, log =>
    let (err, resp) := d.read log.length cmd len
    let log := log ++ [Op.rd cmd len]
    if err = -EAGAIN then nos_device_read_loop d cmd len r log
    else (-err, devReadBuf resp len, log)

def nos_device_read (d : Dev) (cmd len : Nat) (log : List Op) :
    Int × Bytes × List Op :=
  nos_device_read_loop d cmd len RETRY_COUNT log

/-! ## Status records

Modelled from the spec §3 (`application.h` absent from `src/`): the
V1 record is `magic:u32, version:u16, crc:u16, status:u32,
reply_len:u16, reply_crc:u16`, 16 bytes, little-endian; the legacy
record is `status:u32, reply_len:u16` and shares the leading bytes
(the C reads into a union of both). -/

def STATUS_SIZE : Nat := 16

/-- `struct transport_status` as parsed by the host. -/
structure TransportStatus where
  magic : Nat
  version : Nat
  crc : Nat
  status : Nat
  reply_len : Nat
  reply_crc : Nat
deriving DecidableEq, Repr

/-- Zero the CRC field (bytes 6-7) before checksumming, as
`get_status` does. -/
def statusZeroCrc (b : Bytes) : Bytes := b.take 6 ++ [0, 0] ++ b.drop 8

inductive GetStatusRes where
  | ok (st : TransportStatus)
  | ioErr
  | protoErr
deriving DecidableEq, Repr

def statusReadCmd (app : Nat) : Nat := CMD_ID app + CMD_IS_READ + CMD_TRANSPORT

/-- The body of `get_status` (`transport.c:142`): read the status
datagram, detect legacy by the magic, else check the record CRC
(retrying on mismatch) and the version.  In the legacy arm only
`version`, `status` and `reply_len` of the output are assigned by the
C; the remaining fields, uninitialised there, are embedded as 0, and
no embedded caller reads them on that path. -/
def get_status_loop (d : Dev) (app : Nat) : Nat → List Op → GetStatusRes × List Op
  | 0, log => (.protoErr, log)
  | r + 1, log =>
    let (err, b, log) := nos_device_read d (statusReadCmd app) STATUS_SIZE log
    if err ≠ 0 then (.ioErr, log)
    else if le32 b 0 ≠ TRANSPORT_STATUS_MAGIC then
      (.ok ⟨0, TRANSPORT_LEGACY, 0, le32 b 0, le16 b 4, 0⟩, log)
    else
      let theirs := le16 b 6
      let ours := crc16 (statusZeroCrc b)
      if theirs ≠ ours then get_status_loop d app r log
      else if le16 b 4 ≠ TRANSPORT_V1 then (.protoErr, log)
      else (.ok ⟨le32 b 0, le16 b 4, 0, le32 b 8, le16 b 12, le16 b 14⟩, log)

def get_status (d : Dev) (app : Nat) (log : List Op) : GetStatusRes × List Op :=
  get_status_loop d app CRC_RETRY_COUNT log

def clearStatusCmd (app : Nat) : Nat := CMD_ID app + CMD_TRANSPORT

/-- `clear_status` (`transport.c:195`): a zero-length write. -/
def clear_status (d : Dev) (app : Nat) (log : List Op) : Int × List Op :=
  let (err, log) := nos_device_write d (clearStatusCmd app) [] log
  if err ≠ 0 then (-1, log) else (0, log)

/-- The fall-through of `make_ready` after the first inspection did
not find the device idle: clear the status, read it again, and demand
idle. -/
def make_ready_clear (d : Dev) (app : Nat) (log : List Op) : Nat × List Op :=
  let (err, log) := clear_status d app log
  if err ≠ 0 then ( APP_ERROR_IO, log)
  else
    match get_status d app log with
    | (.ok st, log) =>
      if st.status ≠ APP_STATUS_IDLE then ( APP_ERROR_IO, log) else (APP_SUCCESS, log)
    | (_, log) => ( APP_ERROR_IO, log)

/-- `make_ready` (`transport.c:207`). -/
def make_ready (d : Dev) (app : Nat) (log : List Op) : Nat × List Op :=
  match get_status d app log with
  | (.ok st, log) =>
    if st.status = APP_STATUS_IDLE then (APP_SUCCESS, log)
    else make_ready_clear d app log
  | (.protoErr, log) => make_ready_clear d app log
  | (.ioErr, log) => ( APP_ERROR_IO, log)

/-! ## Sending the request -/

def dataWriteCmd (app : Nat) : Nat := CMD_ID app + CMD_IS_DATA + CMD_TRANSPORT

/-- The pure write trace of `send_command`'s datagram do-while loop
(`transport.c:258`): split the (already `uint16_t`-truncated) length
into `MAX_DEVICE_TRANSFER`-sized datagrams, embedding each datagram's
length in the command's param field and or-ing `CMD_MORE_TO_COME` into
every command after the first. -/
def send_ops_f : Nat → Bytes → Nat → Nat → List Op
  | 0, _, _, _ => []
  | fuel + 1, args, cmd, len =>
    let ulen := min len MAX_DEVICE_TRANSFER
    let c := CMD_SET_PARAM cmd ulen
    Op.wr c (args.take ulen) ::
      (if len - ulen = 0 then []
       else send_ops_f fuel (args.drop ulen) (orMore c) (len - ulen))

/-- The entry fuel `len + 1` always suffices — every iteration with a
further iteration to go consumes `MAX_DEVICE_TRANSFER ≥ 1` bytes — so
the fuel only makes the do-while's recursion structural. -/
def send_ops (args : Bytes) (cmd len : Nat) : List Op := send_ops_f (len + 1) args cmd len

/-- The datagram do-while loop of `send_command`, with the device in
the loop: abort with `APP_ERROR_IO` if a write fails.  Structured on
fuel exactly as `send_ops`. -/
def send_loop_f (d : Dev) : Nat → Bytes → Nat → Nat → List Op → Nat × List Op
  | 0, _, _, _, log => ( APP_ERROR_IO, log)
  | fuel + 1, args, cmd, len, log =>
    let ulen := min len MAX_DEVICE_TRANSFER
    let c := CMD_SET_PARAM cmd ulen
    let (err, log) := nos_device_write d c (args.take ulen) log
    if err ≠ 0 then ( APP_ERROR_IO, log)
    else if len - ulen = 0 then (APP_SUCCESS, log)
    else send_loop_f d fuel (args.drop ulen) (orMore c) (len - ulen) log

def send_loop (d : Dev) (args : Bytes) (cmd len : Nat) (log : List Op) :
    Nat × List Op :=
  send_loop_f d (len + 1) args cmd len log

def go_command (app params : Nat) : Nat := CMD_ID app + CMD_PARAM params

/-- `struct transport_command_info` as serialised for the final "go"
write (spec §6: `version:u8, reserved:u8, reply_len_hint:u16, crc:u16`,
packed little-endian).  The CRC covers the 16-bit argument length, the
argument bytes, the 16-bit reply length hint and the 32-bit go command
(`transport.c:292`). -/
def command_info_bytes (args : Bytes) (arg_len hint go : Nat) : Bytes :=
  let crc := crc16 (le2 (arg_len % 65536))
  let crc := crc16_update (args.take arg_len) crc
  let crc := crc16_update (le2 (hint % 65536)) crc
  let crc := crc16_update (le4 go) crc
  [TRANSPORT_V1 % 256, 0] ++ le2 (hint % 65536) ++ le2 crc

/-- `send_command` (`transport.c:251`).  Note the source truncates the
`uint32_t` argument length to `uint16_t` for the datagram loop
(`uint16_t arg_len = ctx->arg_len`), while the command-info CRC walks
the full `ctx->arg_len` bytes. -/
def send_command (d : Dev) (app params : Nat) (args : Bytes) (arg_len hint : Nat)
    (log : List Op) : Nat × List Op :=
  let (res, log) := send_loop d args (dataWriteCmd app) (arg_len % 65536) log
  if res ≠ APP_SUCCESS then (res, log)
  else
    let go := go_command app params
    let (err, log) := nos_device_write d go (command_info_bytes args arg_len hint go) log
    if err ≠ 0 then ( APP_ERROR_IO, log) else (APP_SUCCESS, log)

/-! ## Polling and the reply -/

inductive PollRes where
  | fuelOut
  | ioErr
  | done (code : Nat) (st : TransportStatus)
deriving DecidableEq, Repr

/-- `poll_until_done` (`transport.c:318`): read the status until the
DONE bit is set; the C loop is unbounded, so the embedding takes fuel
and reports `fuelOut` where the C would still be polling. -/
def poll_until_done (d : Dev) (app : Nat) : Nat → List Op → PollRes × List Op
  | 0, log => (.fuelOut, log)
  | f + 1, log =>
    match get_status d app log with
    | (.ok st, log) =>
      if st.status &&& APP_STATUS_DONE ≠ 0 then (.done (APP_STATUS_CODE st.status) st, log)
      else poll_until_done d app f log
    | (_, log) => (.ioErr, log)

def replyReadCmd (app : Nat) : Nat := CMD_ID app + CMD_IS_READ + CMD_TRANSPORT + CMD_IS_DATA

/-- The chunked read of one reply pass (`transport.c:349`): read
`min left MAX_DEVICE_TRANSFER` at a time, or-ing `CMD_MORE_TO_COME`
into the command after the first read and accumulating a CRC over the
concatenation.  Returns (success, crc, bytes, log). -/
def receive_chunks_f (d : Dev) : Nat → Nat → Nat → Nat → List Op → Bool × Nat × Bytes × List Op
  | 0, _, crcAcc, _, log => (false, crcAcc, [], log)
  | fuel + 1, cmd, crcAcc, left, log =>
    if left = 0 then (true, crcAcc, [], log)
    else
      let gimme := min left MAX_DEVICE_TRANSFER
      let (err, b, log) := nos_device_read d cmd gimme log
      if err ≠ 0 then (false, crcAcc, [], log)
      else
        let (ok, crc, rest, log) :=
          receive_chunks_f d fuel (orMore cmd) (crc16_update b crcAcc) (left - gimme) log
        (ok, crc, b ++ rest, log)

/-- The entry fuel `left + 1` always suffices — each chunk consumes
`MAX_DEVICE_TRANSFER ≥ 1` bytes of `left` — so the fuel only makes the
while-loop's recursion structural. -/
def receive_chunks (d : Dev) (cmd crcAcc left : Nat) (log : List Op) :
    Bool × Nat × Bytes × List Op :=
  receive_chunks_f d (left + 1) cmd crcAcc left log

/-- The retrying outer loop of `receive_reply` (`transport.c:338`).
`rlen` is the current value of `*ctx->reply_len`; each complete pass
stores the byte count back into it before the CRC check, and a legacy
status is accepted without any CRC comparison.  Returns
(result, reply_len value, reply bytes, log). -/
def receive_reply_loop (d : Dev) (app : Nat) (st : TransportStatus) (rlen : Nat) :
    Nat → List Op → Nat × Nat × Bytes × List Op
  | 0, log => ( APP_ERROR_IO, rlen, [], log)
  | r + 1, log =>
    let left := min rlen st.reply_len
    let (ok, crc, bytes, log) := receive_chunks d (replyReadCmd app) 0 left log
    if !ok then ( APP_ERROR_IO, rlen, bytes, log)
    else
      let got := left
      if st.version = TRANSPORT_LEGACY then (APP_SUCCESS, got, bytes, log)
      else if crc = st.reply_crc then (APP_SUCCESS, got, bytes, log)
      else receive_reply_loop d app st got r log

def receive_reply (d : Dev) (app : Nat) (st : TransportStatus) (rlen : Nat)
    (log : List Op) : Nat × Nat × Bytes × List Op :=
  receive_reply_loop d app st rlen CRC_RETRY_COUNT log

/-! ## The full call -/

/-- The observable outcome of `nos_call_application`.  `res = none`
means the unbounded poll loop was still running when the fuel ran out.
`reply_len_out` is the final value behind the caller's reply-length
pointer (`none` when the pointer was null).  `finalStatus` is a ghost
field: the status record that ended the successful poll, `none` when
the call never completed a successful poll.  `iters` is a ghost
counter of executed iterations of the call-level retry loop. -/
structure CallOut where
  res : Option Nat
  reply_len_out : Option Nat
  reply_out : Bytes
  log : List Op
  finalStatus : Option TransportStatus
  iters : Nat
deriving DecidableEq, Repr

/-- Lines 428-443 of `transport.c`: after a successful poll, read the
reply only if the caller wants one and the device has one (otherwise
store 0 in `*reply_len`), then best-effort clear the status and return
the app's status code. -/
def finish_call (d : Dev) (app : Nat) (replyNonNull : Bool) (hint : Nat)
    (st : TransportStatus) (log : List Op) (iters : Nat) : CallOut :=
  if replyNonNull ∧ hint ≠ 0 ∧ st.reply_len ≠ 0 then
    let (rres, rlen, bytes, log) := receive_reply d app st hint log
    if rres ≠ APP_SUCCESS then ⟨some rres, some rlen, bytes, log, some st, iters⟩
    else
      let (_, log) := clear_status d app log
      ⟨some (APP_STATUS_CODE st.status), some rlen, bytes, log, some st, iters⟩
  else
    let (_, log) := clear_status d app log
    ⟨some (APP_STATUS_CODE st.status), some 0, [], log, some st, iters⟩

/-- The `do { make_ready; send_command; poll } while (--retries)` loop
of `nos_call_application` (`transport.c:411`), entered with
`retries = CRC_RETRY_COUNT`; when the loop exhausts its retries on
`APP_ERROR_CHECKSUM` the function returns `APP_ERROR_IO`
(`transport.c:426`). -/
def call_loop (d : Dev) (fuel app params : Nat) (args : Bytes) (arg_len : Nat)
    (replyNonNull : Bool) (hint : Nat) :
    Nat → List Op → Nat → CallOut
  | 0, log, iters => ⟨some APP_ERROR_IO, some hint, [], log, none, iters⟩
  | retries + 1, log, iters =>
    let iters := iters + 1
    let (res, log) := make_ready d app log
    if res ≠ APP_SUCCESS then ⟨some res, some hint, [], log, none, iters⟩
    else
      let (res, log) := send_command d app params args arg_len hint log
      if res ≠ APP_SUCCESS then ⟨some res, some hint, [], log, none, iters⟩
      else
        match poll_until_done d app fuel log with
        | (.fuelOut, log) => ⟨none, some hint, [], log, none, iters⟩
        | (.ioErr, log) => ⟨some APP_ERROR_IO, some hint, [], log, none, iters⟩
        | (.done code st, log) =>
          if code = APP_SUCCESS then finish_call d app replyNonNull hint st log iters
          else if code ≠ APP_ERROR_CHECKSUM then ⟨some code, some hint, [], log, none, iters⟩
          else call_loop d fuel app params args arg_len replyNonNull hint retries log iters

/-- The argument pre-check of `nos_call_application`
(`transport.c:400`): `args` is `none` for a null argument pointer,
`reply_len` is `none` for a null reply-length pointer and otherwise
carries the value behind the pointer, `replyNonNull` tells whether the
reply buffer pointer is non-null. -/
def call_precheck_reject (args : Option Bytes) (arg_len : Nat)
    (replyNonNull : Bool) (reply_len : Option Nat) : Bool :=
  (arg_len != 0 && args.isNone) || reply_len.isNone ||
    (reply_len.getD 0 != 0 && !replyNonNull)

/-- `nos_call_application` (`transport.c:384`). -/
def nos_call_application (d : Dev) (fuel app params : Nat) (args : Option Bytes)
    (arg_len : Nat) (replyNonNull : Bool) (reply_len : Option Nat) : CallOut :=
  if call_precheck_reject args arg_len replyNonNull reply_len then
    ⟨some APP_ERROR_IO, reply_len, [], [], none, 0⟩
  else
    call_loop d fuel app params (args.getD []) arg_len replyNonNull (reply_len.getD 0)
      CRC_RETRY_COUNT [] 0

/-! ## The updater (`citadel/updater/updater.cpp`)

The updater talks to the app through `AppClient::Call`, an external
collaborator above the transport; it is embedded as a response oracle
`call : Nat → Bytes → Nat` mapping the index of the flash-block call
and its request bytes to the returned status.  Flash offsets and sizes
stay far below `2^32` in every use, so they are carried as plain
naturals. -/

/-- `compute_fb_digest` (`updater.cpp:247`): SHA-1 over the block from
the `offset` field on, i.e. over `offset || payload`. -/
def compute_fb_digest (offset : Nat) (payload : Bytes) : Nat :=
  compute_digest (le4 offset ++ payload)

/-- The `struct nugget_app_flash_block` request built for one block
(`updater.cpp:268`): `block_digest:u32, offset:u32,
payload[CHIP_FLASH_BANK_SIZE]`, packed little-endian. -/
def mk_flash_block (image : Bytes) (offset : Nat) : Bytes :=
  let payload := (image.drop offset).take CHIP_FLASH_BANK_SIZE
  le4 (compute_fb_digest offset payload) ++ le4 offset ++ payload

/-- The per-block `do { rv = app.Call(...); } while (rv ==
NUGGET_ERROR_RETRY && retries--)` loop (`updater.cpp:278`), entered
with `retries = 3`.  Returns the final `rv` and the number of calls
performed. -/
def flash_retry (call : Nat → Bytes → Nat) (idx : Nat) (data : Bytes) :
    Nat → Nat × Nat
  | 0 => (call idx data, 1)
  | r + 1 =>
    let rv := call idx data
    if rv = NUGGET_ERROR_RETRY then
      let (rv, n) := flash_retry call (idx + 1) data r
      (rv, n + 1)
    else (rv, 1)

/-- The block loop of `try_update` (`updater.cpp:266`): `rv` is the
value of the C variable `uint32_t rv`, which no statement has
initialised before the loop — `none` embeds that state.  Returns the
final `rv`, the next call index and the offsets of the flash-block
calls performed (one entry per call). -/
def try_update_loop_f (call : Nat → Bytes → Nat) (image : Bytes) (stop : Nat) :
    Nat → Nat → Nat → Option Nat → Option Nat × Nat × List Nat
  | 0, idx, _, rv => (rv, idx, [])
  | fuel + 1, idx, offset, rv =>
    if offset < stop then
      let (r, n) := flash_retry call idx (mk_flash_block image offset) 3
      if r ≠ APP_SUCCESS then (some r, idx + n, List.replicate n offset)
      else
        let (rv, idx2, lg) :=
          try_update_loop_f call image stop fuel (idx + n) (offset + CHIP_FLASH_BANK_SIZE) (some r)
        (rv, idx2, List.replicate n offset ++ lg)
    else (rv, idx, [])

/-- The entry fuel `stop - offset + 1` always suffices — every
iteration advances `offset` by `CHIP_FLASH_BANK_SIZE ≥ 1` — so the
fuel only makes the for-loop's recursion structural. -/
def try_update_loop (call : Nat → Bytes → Nat) (image : Bytes) (stop idx offset : Nat)
    (rv : Option Nat) : Option Nat × Nat × List Nat :=
  try_update_loop_f call image stop (stop - offset + 1) idx offset rv

/-- `try_update` (`updater.cpp:257`). -/
def try_update (call : Nat → Bytes → Nat) (idx : Nat) (image : Bytes)
    (offset imagesize : Nat) : Option Nat × Nat × List Nat :=
  try_update_loop call image (offset + imagesize) idx offset none

/-- `do_update` (`updater.cpp:296`).  `signed_header.h` is absent from
`src/`; modelled from the spec, the signed header of a slot exposes
only its `image_size`, embedded as the oracle `hsz` from slot offset
to size.  Returns the result and the offsets of all flash-block calls
performed. -/
def do_update (call : Nat → Bytes → Nat) (image : Bytes) (hsz : Nat → Nat)
    (oA oB : Nat) : Option Nat × List Nat :=
  let (rvA, idxA, logA) := try_update call 0 image oA (hsz oA)
  if rvA = some APP_SUCCESS then (rvA, logA)
  else
    let (rvB, _, logB) := try_update call idxA image oB (hsz oB)
    (rvB, logA ++ logB)

/-! ## Password records (`do_change_pw`)

Modelled from the spec §3: the password structs of `app_nugget.h` are
absent from this `src/` snapshot.  A password record is a fixed-size
password buffer together with a 4-byte digest; the spec leaves the
buffer length `N` open, so a representative `N = 64` is fixed — no
claim depends on its value.  A C string argument is embedded as
`Option Bytes`: `none` for a null pointer, otherwise the bytes before
the terminator (so `some []` is the empty string). -/

def NUGGET_UPDATE_PASSWORD_LEN : Nat := 64

structure NuggetAppPassword where
  password : Bytes
  digest : Nat
deriving DecidableEq, Repr

structure NuggetAppChangeUpdatePassword where
  old_password : NuggetAppPassword
  new_password : NuggetAppPassword
deriving DecidableEq, Repr

/-- The state of a password record after `memset(s, 0xff, sizeof(*s))`
(`updater.cpp:355`): every byte 0xFF, so the `u32` digest field reads
as `0xFFFFFFFF`. -/
def blank_password : NuggetAppPassword :=
  ⟨List.replicate NUGGET_UPDATE_PASSWORD_LEN 255, 4294967295⟩

/-- One populated password field (`updater.cpp:356`): `strlen` bytes
copied over the front of the all-0xFF buffer, digest recomputed over
the whole buffer. -/
def filled_password (pw : Bytes) : NuggetAppPassword :=
  let buf := pw.take NUGGET_UPDATE_PASSWORD_LEN ++
    List.replicate (NUGGET_UPDATE_PASSWORD_LEN - pw.length) 255
  ⟨buf, compute_digest buf⟩

/-- `old_pw && *old_pw`: the pointer is non-null and the string
non-empty. -/
def pw_present : Option Bytes → Bool
  | some (_ :: _) => true
  | _ => false

/-- The request record built by `do_change_pw` (`updater.cpp:347`):
start from the all-0xFF memset and fill only the present, non-empty
passwords. -/
def do_change_pw_record (old_pw new_pw : Option Bytes) : NuggetAppChangeUpdatePassword :=
  let s : NuggetAppChangeUpdatePassword := ⟨blank_password, blank_password⟩
  let s := if pw_present old_pw then { s with old_password := filled_password (old_pw.getD []) } else s
  if pw_present new_pw then { s with new_password := filled_password (new_pw.getD []) } else s

/-! ## `NuggetClient::StatusCodeString` (`libnos/NuggetClient.cpp`) -/

/-- `std::to_string` of the `uint32_t` value `code - APP_LINE_NUMBER_BASE`
(the subtraction wraps modulo `2^32` when `code` is below the base). -/
def u32_sub (a b : Nat) : Nat := (a + 4294967296 - b % 4294967296) % 4294967296

/-- `NuggetClient::StatusCodeString` (`NuggetClient.cpp:11`),
embedded switch-case by case.  Note the source's `APP_SPECIFIC_ERROR`
arm stringifies `APP_LINE_NUMBER_BASE` and `code - APP_LINE_NUMBER_BASE`,
not the app-specific base and offset. -/
def StatusCodeString (code : Nat) : String :=
  if code = APP_SUCCESS then "APP_SUCCESS"
  else if code = APP_ERROR_BOGUS_ARGS then "APP_ERROR_BOGUS_ARGS"
  else if code = APP_ERROR_INTERNAL then "APP_ERROR_INTERNAL"
  else if code = APP_ERROR_TOO_MUCH then "APP_ERROR_TOO_MUCH"
  else if code = APP_ERROR_RPC then "APP_ERROR_RPC"
  else if APP_LINE_NUMBER_BASE ≤ code ∧ code < MAX_APP_STATUS then
    "APP_LINE_NUMBER " ++ toString (code - APP_LINE_NUMBER_BASE)
  else if APP_SPECIFIC_ERROR ≤ code ∧ code < APP_LINE_NUMBER_BASE then
    "APP_SPECIFIC_ERROR " ++ toString APP_LINE_NUMBER_BASE ++ " + " ++
      toString (u32_sub code APP_LINE_NUMBER_BASE)
  else "unknown"





/-! ## Concrete devices and oracles for witnesses and counterexamples -/

/-- A device that accepts every write and answers every read with an
empty buffer (all zero bytes, hence a legacy idle status). -/
def devAccept : Dev := ⟨fun _ _ _ => (0, []), fun _ _ _ => 0⟩

/-- A device that always reports `-EAGAIN` (asleep). -/
def devSleepy : Dev := ⟨fun _ _ _ => (-EAGAIN, []), fun _ _ _ => -EAGAIN⟩

/-- Legacy device: idle on the first status read, then done with
result code `APP_ERROR_BOGUS_ARGS` (status word `0x80000001`). -/
def devLegacyError : Dev :=
  ⟨fun i _ _ => (0, if i = 0 then List.replicate 16 0 else [1, 0, 0, 128] ++ List.replicate 12 0),
   fun _ _ _ => 0⟩

/-- Legacy device: idle on the first status read, then done with
`APP_SUCCESS` and an empty reply (status word `0x80000000`). -/
def devLegacySuccess : Dev :=
  ⟨fun i _ _ => (0, if i = 0 then List.replicate 16 0 else [0, 0, 0, 128] ++ List.replicate 12 0),
   fun _ _ _ => 0⟩

/-- Legacy device reporting `APP_ERROR_CHECKSUM` on every poll: each
call iteration performs a status read, two writes and a poll read, so
reads at operation indices `0 mod 4` see idle and the others see the
done-with-checksum status word `0x80000006`. -/
def devLegacyChecksum : Dev :=
  ⟨fun i _ _ =>
      (0, if i % 4 = 0 then List.replicate 16 0 else [6, 0, 0, 128] ++ List.replicate 12 0),
   fun _ _ _ => 0⟩

/-- Legacy device with a 2-byte reply: the first status read is idle,
the poll read reports done with `reply_len = 2`, and the data read
returns the reply bytes. -/
def devLegacyReply : Dev :=
  ⟨fun i _ _ =>
      (0, if i = 0 then List.replicate 16 0
          else if i = 3 then [0, 0, 0, 128, 2, 0] ++ List.replicate 10 0
          else [170, 187]),
   fun _ _ _ => 0⟩

/-- An app-call oracle that accepts every flash block. -/
def callOk : Nat → Bytes → Nat := fun _ _ => APP_SUCCESS

/-- An app-call oracle that always asks for a retry. -/
def callRetry : Nat → Bytes → Nat := fun _ _ => NUGGET_ERROR_RETRY

/-- A two-bank all-zero flash image for updater witnesses. -/
def imageW : Bytes := List.replicate 8192 0

/-- A header oracle giving every slot a one-bank image size. -/
def hszW : Nat → Nat := fun _ => CHIP_FLASH_BANK_SIZE

/-! ## Helper lemmas: the retrying datagram layer -/

theorem nos_device_write_loop_len (d : Dev) (c : Nat) (p : Bytes) :
    ∀ r log, (nos_device_write_loop d c p r log).2.length ≤ log.length + r := by
  intro r
  induction r with
  | zero => intro log; simp [nos_device_write_loop]
  | succ r ih =>
    intro log
    rw [nos_device_write_loop]
    split
    · exact le_trans (ih (log ++ [Op.wr c p]))
        (by simp only [List.length_append, List.length_singleton]; omega)
    · simp only [List.length_append, List.length_singleton]; omega

theorem nos_device_write_loop_eagain (d : Dev) (c : Nat) (p : Bytes)
    (h : ∀ i, d.write i c p = -EAGAIN) :
    ∀ r log, nos_device_write_loop d c p r log = (ETIMEDOUT, log ++ List.replicate r (Op.wr c p)) := by
  intro r
  induction r with
  | zero => intro log; simp [nos_device_write_loop]
  | succ r ih =>
    intro log
    rw [nos_device_write_loop]
    simp only [h, if_pos rfl, ih]
    simp [List.replicate_succ]

theorem nos_device_read_loop_len (d : Dev) (c n : Nat) :
    ∀ r log, (nos_device_read_loop d c n r log).2.2.length ≤ log.length + r := by
  intro r
  induction r with
  | zero => intro log; simp [nos_device_read_loop]
  | succ r ih =>
    intro log
    rcases hr : d.read log.length c n with ⟨err, resp⟩
    rw [nos_device_read_loop]
    simp only [hr]
    split
    · exact le_trans (ih (log ++ [Op.rd c n]))
        (by simp only [List.length_append, List.length_singleton]; omega)
    · simp only [List.length_append, List.length_singleton]; omega

theorem nos_device_read_loop_eagain (d : Dev) (c n : Nat)
    (h : ∀ i, d.read i c n = (-EAGAIN, [])) :
    ∀ r log, nos_device_read_loop d c n r log = (ETIMEDOUT, [], log ++ List.replicate r (Op.rd c n)) := by
  intro r
  induction r with
  | zero => intro log; simp [nos_device_read_loop]
  | succ r ih =>
    intro log
    rw [nos_device_read_loop]
    simp only [h, if_pos rfl, ih]
    simp [List.replicate_succ]

/-- A write accepted at the first attempt performs exactly one bus
operation. -/
theorem nos_device_write_ok (d : Dev) (c : Nat) (p : Bytes) (log : List Op)
    (h : d.write log.length c p = 0) :
    nos_device_write d c p log = (0, log ++ [Op.wr c p]) := by
  rw [nos_device_write, RETRY_COUNT, show (25 : Nat) = 24 + 1 from rfl, nos_device_write_loop]
  simp [h, EAGAIN]

/-- A read answered at the first attempt performs exactly one bus
operation. -/
theorem nos_device_read_ok (d : Dev) (c n : Nat) (log : List Op) (b : Bytes)
    (h : d.read log.length c n = (0, b)) :
    nos_device_read d c n log = (0, devReadBuf b n, log ++ [Op.rd c n]) := by
  rw [nos_device_read, RETRY_COUNT, show (25 : Nat) = 24 + 1 from rfl, nos_device_read_loop]
  simp [h, EAGAIN]

theorem nos_device_write_loop_last (d : Dev) (c : Nat) (p : Bytes) :
    ∀ r log, (∃ pre, log = pre ++ [Op.wr c p]) →
      ∃ pre, (nos_device_write_loop d c p r log).2 = pre ++ [Op.wr c p] := by
  intro r
  induction r with
  | zero => intro log h; simpa [nos_device_write_loop] using h
  | succ r ih =>
    intro log h
    rw [nos_device_write_loop]
    split
    · exact ih _ ⟨log, rfl⟩
    · exact ⟨log, rfl⟩

/-- Every write leaves the log ending with that write's operation. -/
theorem nos_device_write_last (d : Dev) (c : Nat) (p : Bytes) (log : List Op) :
    ∃ pre, (nos_device_write d c p log).2 = pre ++ [Op.wr c p] := by
  rw [nos_device_write, RETRY_COUNT, show (25 : Nat) = 24 + 1 from rfl, nos_device_write_loop]
  split
  · exact nos_device_write_loop_last d c p _ _ ⟨log, rfl⟩
  · exact ⟨log, rfl⟩

/-- `clear_status` leaves the log ending with the zero-length
clear-status write. -/
theorem clear_status_last (d : Dev) (app : Nat) (log : List Op) :
    ∃ pre, (clear_status d app log).2 = pre ++ [Op.wr (clearStatusCmd app) []] := by
  obtain ⟨pre, hpre⟩ := nos_device_write_last d (clearStatusCmd app) [] log
  refine ⟨pre, ?_⟩
  rcases h : nos_device_write d (clearStatusCmd app) [] log with ⟨err, log2⟩
  rw [h] at hpre
  unfold clear_status
  simp only [h]
  split <;> simpa using hpre

/-! ## Helper lemmas: command-word arithmetic -/

theorem moreBit_set_param (c p : Nat) : moreBit (CMD_SET_PARAM c p) = moreBit c := by
  unfold moreBit CMD_SET_PARAM
  omega

theorem moreBit_orMore (c : Nat) : moreBit (orMore c) = 1 := by
  unfold orMore
  split
  · assumption
  · unfold moreBit CMD_MORE_TO_COME at *
    omega

theorem set_param_mod (c p : Nat) : CMD_SET_PARAM c p % 65536 = p % 65536 := by
  unfold CMD_SET_PARAM
  omega

theorem moreBit_dataWriteCmd (a : Nat) : moreBit (dataWriteCmd a) = 0 := by
  unfold moreBit dataWriteCmd CMD_ID CMD_IS_DATA CMD_TRANSPORT
  omega

/-! ## Helper lemmas: the datagram split of `send_command` -/

theorem send_ops_f_irrel : ∀ f1 f2 (args : Bytes) (cmd len : Nat), len < f1 → len < f2 →
    send_ops_f f1 args cmd len = send_ops_f f2 args cmd len := by
  intro f1
  induction f1 with
  | zero => intro f2 args cmd len h1 _; exact absurd h1 (by omega)
  | succ g ih =>
    intro f2 args cmd len h1 h2
    cases f2 with
    | zero => exact absurd h2 (by omega)
    | succ f =>
      simp only [send_ops_f]
      by_cases hz : len - min len MAX_DEVICE_TRANSFER = 0
      · simp [hz]
      · simp only [if_neg hz]
        rw [ih f _ _ _ (by simp only [MAX_DEVICE_TRANSFER] at *; omega)
            (by simp only [MAX_DEVICE_TRANSFER] at *; omega)]

/-- The one-step unfolding of the datagram do-while loop. -/
theorem send_ops_eq (args : Bytes) (cmd len : Nat) :
    send_ops args cmd len =
      Op.wr (CMD_SET_PARAM cmd (min len MAX_DEVICE_TRANSFER))
        (args.take (min len MAX_DEVICE_TRANSFER)) ::
      (if len - min len MAX_DEVICE_TRANSFER = 0 then []
       else send_ops (args.drop (min len MAX_DEVICE_TRANSFER))
         (orMore (CMD_SET_PARAM cmd (min len MAX_DEVICE_TRANSFER)))
         (len - min len MAX_DEVICE_TRANSFER)) := by
  unfold send_ops
  conv_lhs => simp only [send_ops_f]
  by_cases hz : len - min len MAX_DEVICE_TRANSFER = 0
  · simp [hz]
  · simp only [if_neg hz]
    rw [send_ops_f_irrel len (len - min len MAX_DEVICE_TRANSFER + 1) _ _ _
        (by simp only [MAX_DEVICE_TRANSFER] at *; omega) (by omega)]

theorem send_loop_f_irrel (d : Dev) : ∀ f1 f2 (args : Bytes) (cmd len : Nat) (log : List Op),
    len < f1 → len < f2 →
    send_loop_f d f1 args cmd len log = send_loop_f d f2 args cmd len log := by
  intro f1
  induction f1 with
  | zero => intro f2 args cmd len log h1 _; exact absurd h1 (by omega)
  | succ g ih =>
    intro f2 args cmd len log h1 h2
    cases f2 with
    | zero => exact absurd h2 (by omega)
    | succ f =>
      simp only [send_loop_f]
      rcases hw : nos_device_write d (CMD_SET_PARAM cmd (min len MAX_DEVICE_TRANSFER))
          (args.take (min len MAX_DEVICE_TRANSFER)) log with ⟨err, log2⟩
      simp only [hw]
      split_ifs with he hz
      · rfl
      · rfl
      · exact ih f _ _ _ _ (by simp only [MAX_DEVICE_TRANSFER] at *; omega)
          (by simp only [MAX_DEVICE_TRANSFER] at *; omega)

/-- The one-step unfolding of the device-facing do-while loop. -/
theorem send_loop_eq (d : Dev) (args : Bytes) (cmd len : Nat) (log : List Op) :
    send_loop d args cmd len log =
      (if (nos_device_write d (CMD_SET_PARAM cmd (min len MAX_DEVICE_TRANSFER))
            (args.take (min len MAX_DEVICE_TRANSFER)) log).1 ≠ 0 then
        ( APP_ERROR_IO, (nos_device_write d (CMD_SET_PARAM cmd (min len MAX_DEVICE_TRANSFER))
          (args.take (min len MAX_DEVICE_TRANSFER)) log).2)
       else if len - min len MAX_DEVICE_TRANSFER = 0 then
        (APP_SUCCESS, (nos_device_write d (CMD_SET_PARAM cmd (min len MAX_DEVICE_TRANSFER))
          (args.take (min len MAX_DEVICE_TRANSFER)) log).2)
       else send_loop d (args.drop (min len MAX_DEVICE_TRANSFER))
        (orMore (CMD_SET_PARAM cmd (min len MAX_DEVICE_TRANSFER)))
        (len - min len MAX_DEVICE_TRANSFER)
        (nos_device_write d (CMD_SET_PARAM cmd (min len MAX_DEVICE_TRANSFER))
          (args.take (min len MAX_DEVICE_TRANSFER)) log).2) := by
  unfold send_loop
  conv_lhs => simp only [send_loop_f]
  rcases hw : nos_device_write d (CMD_SET_PARAM cmd (min len MAX_DEVICE_TRANSFER))
      (args.take (min len MAX_DEVICE_TRANSFER)) log with ⟨err, log2⟩
  simp only [hw]
  split_ifs with he hz
  · rfl
  · rfl
  · exact send_loop_f_irrel d len (len - min len MAX_DEVICE_TRANSFER + 1) _ _ _ _
      (by simp only [MAX_DEVICE_TRANSFER] at *; omega) (by omega)

theorem send_ops_length (len : Nat) :
    ∀ args cmd, (send_ops args cmd len).length =
      max 1 ((len + MAX_DEVICE_TRANSFER - 1) / MAX_DEVICE_TRANSFER) := by
  induction len using Nat.strong_induction_on with
  | _ len ih =>
    intro args cmd
    rw [send_ops_eq]
    by_cases h : len - min len MAX_DEVICE_TRANSFER = 0
    · rw [if_pos h]
      simp only [MAX_DEVICE_TRANSFER] at *
      simp only [List.length_singleton]
      omega
    · rw [if_neg h, List.length_cons]
      rw [ih (len - min len MAX_DEVICE_TRANSFER)
        (by simp only [MAX_DEVICE_TRANSFER] at *; omega)]
      simp only [MAX_DEVICE_TRANSFER] at *
      omega

theorem send_ops_param (len : Nat) :
    ∀ args cmd, args.length = len →
      ∀ op ∈ send_ops args cmd len, ∃ c q, op = Op.wr c q ∧ c % 65536 = q.length := by
  induction len using Nat.strong_induction_on with
  | _ len ih =>
    intro args cmd hargs op hop
    rw [send_ops_eq] at hop
    rcases List.mem_cons.1 hop with h | h
    · refine ⟨_, _, h, ?_⟩
      rw [set_param_mod, List.length_take, hargs]
      simp only [MAX_DEVICE_TRANSFER]
      omega
    · by_cases hz : len - min len MAX_DEVICE_TRANSFER = 0
      · simp [hz] at h
      · rw [if_neg hz] at h
        exact ih (len - min len MAX_DEVICE_TRANSFER)
          (by simp only [MAX_DEVICE_TRANSFER] at *; omega) _ _
          (by rw [List.length_drop, hargs]) op h

theorem send_ops_more (len : Nat) :
    ∀ args cmd, moreBit cmd = 1 →
      ∀ op ∈ send_ops args cmd len, ∃ c q, op = Op.wr c q ∧ moreBit c = 1 := by
  induction len using Nat.strong_induction_on with
  | _ len ih =>
    intro args cmd hcmd op hop
    rw [send_ops_eq] at hop
    rcases List.mem_cons.1 hop with h | h
    · exact ⟨_, _, h, by rw [moreBit_set_param]; exact hcmd⟩
    · by_cases hz : len - min len MAX_DEVICE_TRANSFER = 0
      · simp [hz] at h
      · rw [if_neg hz] at h
        exact ih (len - min len MAX_DEVICE_TRANSFER)
          (by simp only [MAX_DEVICE_TRANSFER] at *; omega) _ _
          (moreBit_orMore _) op h

theorem send_ops_head_tail (args : Bytes) (cmd len : Nat) :
    ∃ tail, send_ops args cmd len =
      Op.wr (CMD_SET_PARAM cmd (min len MAX_DEVICE_TRANSFER))
        (args.take (min len MAX_DEVICE_TRANSFER)) :: tail ∧
      ∀ op ∈ tail, ∃ c q, op = Op.wr c q ∧ moreBit c = 1 := by
  rw [send_ops_eq]
  by_cases hz : len - min len MAX_DEVICE_TRANSFER = 0
  · exact ⟨[], by rw [if_pos hz], by simp⟩
  · refine ⟨_, by rw [if_neg hz], ?_⟩
    exact send_ops_more _ _ _ (moreBit_orMore _)

/-- With an always-accepting driver, the datagram loop of
`send_command` succeeds and writes exactly the datagrams described by
`send_ops`. -/
theorem send_loop_ok (d : Dev) (hw : ∀ i c p, d.write i c p = 0) (len : Nat) :
    ∀ args cmd log, send_loop d args cmd len log = (APP_SUCCESS, log ++ send_ops args cmd len) := by
  induction len using Nat.strong_induction_on with
  | _ len ih =>
    intro args cmd log
    rw [send_loop_eq, send_ops_eq]
    rw [nos_device_write_ok d _ _ log (hw _ _ _)]
    dsimp only
    rw [if_neg (by decide : ¬((0 : Int) ≠ 0))]
    by_cases hz : len - min len MAX_DEVICE_TRANSFER = 0
    · rw [if_pos hz, if_pos hz]
    · rw [if_neg hz, if_neg hz]
      rw [ih (len - min len MAX_DEVICE_TRANSFER)
        (by simp only [MAX_DEVICE_TRANSFER] at *; omega)]
      rw [List.append_assoc]
      rfl

/-! ## Claim C1 -/

/-- C1 counterexample: for a request of `N = 65536` bytes the send
phase issues a single (empty) data-write datagram, not
`⌈N/MTU⌉ = 33`, because `send_command` truncates the `uint32_t`
argument length to `uint16_t`. -/
theorem mtu_split_truncation_cex :
    (send_command devAccept 1 2 (List.replicate 65536 9) 65536 0 []).1 = APP_SUCCESS ∧
    ((send_command devAccept 1 2 (List.replicate 65536 9) 65536 0 []).2.countP
      (fun op => match op with
        | Op.wr c _ => decide (c / 2097152 % 2 = 1)
        | _ => false)) = 1 ∧
    (65536 + MAX_DEVICE_TRANSFER - 1) / MAX_DEVICE_TRANSFER = 33 ∧
    (1 : Nat) ≠ 33 := by
  refine ⟨by decide, by decide, by decide, by decide⟩

/-- C1 (amended): for every request of size `N < 65536` whose writes
the device accepts, the send phase issues exactly
`max 1 ⌈N/MAX_DEVICE_TRANSFER⌉` data-write datagrams followed by the
"go" write; the first datagram's command lacks `CMD_MORE_TO_COME`,
every later one carries it, and the `CMD_SET_PARAM` length embedded in
each write's command word equals the number of bytes carried by that
datagram.  (For `N ≥ 65536` the C truncates the length to `N mod
2^16`.) -/
theorem mtu_split_amended (d : Dev) (app params : Nat) (args : Bytes) (arg_len hint : Nat)
    (log : List Op) (hlen : arg_len < 65536) (hargs : args.length = arg_len)
    (hw : ∀ i c p, d.write i c p = 0) :
    send_command d app params args arg_len hint log =
      (APP_SUCCESS, log ++ send_ops args (dataWriteCmd app) arg_len ++
        [Op.wr (go_command app params)
          (command_info_bytes args arg_len hint (go_command app params))]) ∧
    (send_ops args (dataWriteCmd app) arg_len).length =
      max 1 ((arg_len + MAX_DEVICE_TRANSFER - 1) / MAX_DEVICE_TRANSFER) ∧
    (∃ tail, send_ops args (dataWriteCmd app) arg_len =
        Op.wr (CMD_SET_PARAM (dataWriteCmd app) (min arg_len MAX_DEVICE_TRANSFER))
          (args.take (min arg_len MAX_DEVICE_TRANSFER)) :: tail ∧
        moreBit (CMD_SET_PARAM (dataWriteCmd app) (min arg_len MAX_DEVICE_TRANSFER)) = 0 ∧
        ∀ op ∈ tail, ∃ c q, op = Op.wr c q ∧ moreBit c = 1) ∧
    (∀ op ∈ send_ops args (dataWriteCmd app) arg_len,
      ∃ c q, op = Op.wr c q ∧ c % 65536 = q.length) := by
  refine ⟨?_, send_ops_length _ _ _, ?_, send_ops_param _ _ _ hargs⟩
  · unfold send_command
    rw [Nat.mod_eq_of_lt hlen, send_loop_ok d hw]
    simp only [ne_eq, not_true_eq_false, if_false, APP_SUCCESS]
    rw [nos_device_write_ok d _ _ _ (hw _ _ _)]
    simp [List.append_assoc]
  · obtain ⟨tail, ht, hmore⟩ := send_ops_head_tail args (dataWriteCmd app) arg_len
    exact ⟨tail, ht, by rw [moreBit_set_param, moreBit_dataWriteCmd], hmore⟩

/-- C1 witness: the amended statement evaluated at a concrete 5000-byte
request (3 datagrams of 2044, 2044 and 912 bytes). -/
theorem mtu_split_amended_witness :
    send_command devAccept 1 2 (List.replicate 5000 7) 5000 0 [] =
      (APP_SUCCESS, [] ++ send_ops (List.replicate 5000 7) (dataWriteCmd 1) 5000 ++
        [Op.wr (go_command 1 2)
          (command_info_bytes (List.replicate 5000 7) 5000 0 (go_command 1 2))]) ∧
    (send_ops (List.replicate 5000 7) (dataWriteCmd 1) 5000).length =
      max 1 ((5000 + MAX_DEVICE_TRANSFER - 1) / MAX_DEVICE_TRANSFER) ∧
    (∃ tail, send_ops (List.replicate 5000 7) (dataWriteCmd 1) 5000 =
        Op.wr (CMD_SET_PARAM (dataWriteCmd 1) (min 5000 MAX_DEVICE_TRANSFER))
          ((List.replicate 5000 7).take (min 5000 MAX_DEVICE_TRANSFER)) :: tail ∧
        moreBit (CMD_SET_PARAM (dataWriteCmd 1) (min 5000 MAX_DEVICE_TRANSFER)) = 0 ∧
        ∀ op ∈ tail, ∃ c q, op = Op.wr c q ∧ moreBit c = 1) ∧
    (∀ op ∈ send_ops (List.replicate 5000 7) (dataWriteCmd 1) 5000,
      ∃ c q, op = Op.wr c q ∧ c % 65536 = q.length) :=
  mtu_split_amended devAccept 1 2 (List.replicate 5000 7) 5000 0 []
    (by decide) (List.length_replicate 5000 7) (fun _ _ _ => rfl)

/-! ## Claim C7 -/

/-- C7: the status-to-string helper is queried at
`APP_SPECIFIC_ERROR` and `APP_SPECIFIC_ERROR + 5`.  The claim says the
rendered string names `APP_SPECIFIC_ERROR` plus the offset
`code - APP_SPECIFIC_ERROR` (0 and 5 here); the source instead
stringifies `APP_LINE_NUMBER_BASE` and the `uint32_t`-wrapped
difference `code - APP_LINE_NUMBER_BASE`, a copy-paste slip from the
line-number arm (the updater's own `is_app_success` renders the same
bucket correctly).  Codes at or above `MAX_APP_STATUS` render as
"unknown", not as a line-number bucket. -/
theorem status_code_string_bug :
    StatusCodeString APP_SPECIFIC_ERROR =
      "APP_SPECIFIC_ERROR 1879048192 + 2416050176" ∧
    APP_SPECIFIC_ERROR - APP_SPECIFIC_ERROR = 0 ∧
    StatusCodeString (APP_SPECIFIC_ERROR + 5) =
      "APP_SPECIFIC_ERROR 1879048192 + 2416050181" ∧
    StatusCodeString (APP_LINE_NUMBER_BASE + 7) = "APP_LINE_NUMBER 7" ∧
    StatusCodeString MAX_APP_STATUS = "unknown" := by
  refine ⟨by decide, rfl, by decide, by decide, by decide⟩

/-! ## Claim C10 -/

/-- The block loop returns an initialised result as soon as it runs at
least one iteration (or was handed one). -/
theorem try_update_loop_f_some (call : Nat → Bytes → Nat) (image : Bytes) (stop : Nat) :
    ∀ fuel idx offset rv, stop - offset < fuel → (offset < stop ∨ rv.isSome) →
      ((try_update_loop_f call image stop fuel idx offset rv).1).isSome := by
  intro fuel
  induction fuel with
  | zero => intro idx offset rv h1 _; exact absurd h1 (by omega)
  | succ f ih =>
    intro idx offset rv h1 h2
    simp only [try_update_loop_f]
    by_cases ho : offset < stop
    · rw [if_pos ho]
      rcases hr : flash_retry call idx (mk_flash_block image offset) 3 with ⟨r, n⟩
      by_cases hz : r ≠ APP_SUCCESS
      · simp [hz]
      · simp only [if_neg hz]
        rcases h3 : try_update_loop_f call image stop f (idx + n)
            (offset + CHIP_FLASH_BANK_SIZE) (some r) with ⟨rv2, idx2, lg⟩
        have := ih (idx + n) (offset + CHIP_FLASH_BANK_SIZE) (some r)
          (by simp only [CHIP_FLASH_BANK_SIZE] at *; omega) (Or.inr rfl)
        rw [h3] at this
        simpa using this
    · rw [if_neg ho]
      rcases h2 with h2 | h2
      · exact absurd h2 ho
      · simpa using h2

/-- With a positive image size the block loop runs and `rv` is
assigned. -/
theorem try_update_pos_some (call : Nat → Bytes → Nat) (idx : Nat) (image : Bytes)
    (offset size : Nat) (h : 0 < size) :
    ∃ v, (try_update call idx image offset size).1 = some v := by
  rw [← Option.isSome_iff_exists]
  unfold try_update try_update_loop
  exact try_update_loop_f_some call image (offset + size) _ idx offset none
    (by omega) (Or.inl (by omega))

/-- C10: when the image size from a slot's header is 0 the block loop
body never runs, no flash-block call is made, and `try_update` returns
the value of the uninitialised variable `rv` (embedded as `none`);
with any positive size the result is an assigned value. -/
theorem try_update_zero_size (call : Nat → Bytes → Nat) (idx : Nat) (image : Bytes)
    (offset : Nat) :
    try_update call idx image offset 0 = (none, idx, []) ∧
    (∀ size, 0 < size → ∃ v, (try_update call idx image offset size).1 = some v) := by
  constructor
  · unfold try_update try_update_loop
    simp [try_update_loop_f]
  · intro size h
    exact try_update_pos_some call idx image offset size h

/-- C10 witness: the theorem evaluated at size 0 and one bank. -/
theorem try_update_zero_size_witness :
    try_update callOk 0 imageW 0 0 = (none, 0, []) ∧
    (0 : Nat) < CHIP_FLASH_BANK_SIZE ∧
    (∃ v, (try_update callOk 0 imageW 0 CHIP_FLASH_BANK_SIZE).1 = some v) :=
  ⟨(try_update_zero_size callOk 0 imageW 0).1, by decide,
    (try_update_zero_size callOk 0 imageW 0).2 CHIP_FLASH_BANK_SIZE (by decide)⟩

/-! ## Claim C6 -/

set_option maxRecDepth 100000 in
/-- C6 counterexample: in the record built by `do_change_pw` with an
absent old password, the old-password field is all 0xFF but its digest
is the memset fill `0xFFFFFFFF`, which is not the first 4 bytes of
SHA-1 over the all-0xFF buffer (that would be `505857791`, little
endian). -/
theorem change_pw_digest_cex :
    (do_change_pw_record none (some [97])).old_password.password =
      List.replicate NUGGET_UPDATE_PASSWORD_LEN 255 ∧
    (do_change_pw_record none (some [97])).old_password.digest = 4294967295 ∧
    compute_digest (List.replicate NUGGET_UPDATE_PASSWORD_LEN 255) = 505857791 ∧
    (do_change_pw_record none (some [97])).old_password.digest ≠
      compute_digest (List.replicate NUGGET_UPDATE_PASSWORD_LEN 255) := by
  refine ⟨rfl, rfl, by decide, by decide⟩

/-- C6 (amended): every unused (absent or empty) password field of the
change-password record is filled entirely with 0xFF bytes, including
its digest field, which therefore holds `0xFFFFFFFF`; no SHA-1 digest
is computed over the all-0xFF buffer for unused fields. -/
theorem change_pw_unused_fields (old_pw new_pw : Option Bytes) :
    blank_password = ⟨List.replicate NUGGET_UPDATE_PASSWORD_LEN 255, 4294967295⟩ ∧
    (pw_present old_pw = false →
      (do_change_pw_record old_pw new_pw).old_password = blank_password) ∧
    (pw_present new_pw = false →
      (do_change_pw_record old_pw new_pw).new_password = blank_password) := by
  refine ⟨rfl, ?_, ?_⟩
  · intro h
    unfold do_change_pw_record
    rw [h]
    simp only [Bool.false_eq_true, if_false]
    split <;> rfl
  · intro h
    unfold do_change_pw_record
    rw [h]
    simp only [Bool.false_eq_true, if_false]
    split <;> rfl

/-- C6 witness: the amended statement at an absent old password and
new password "ab". -/
theorem change_pw_unused_fields_witness :
    pw_present (none : Option Bytes) = false ∧
    (do_change_pw_record none (some [97, 98])).old_password = blank_password :=
  ⟨rfl, (change_pw_unused_fields none (some [97, 98])).2.1 rfl⟩

/-! ## Claim C5 -/

/-- C5 counterexample: the input `args = null, arg_len = 5,
reply = null, *reply_len = 0` satisfies all three of the claim's
conditions ("args != null implies arg_len > 0" vacuously, "reply
capacity > 0 implies reply != null" vacuously, reply-length pointer
supplied), yet the pre-check rejects it with `APP_ERROR_IO` before any
device I/O (the operation log is empty); conversely
`args = [7], arg_len = 0` violates the claim's first condition but is
not rejected. -/
theorem input_validation_cex :
    nos_call_application devAccept 4 0 0 none 5 false (some 0) =
      ⟨some APP_ERROR_IO, some 0, [], [], none, 0⟩ ∧
    call_precheck_reject (some [7]) 0 false (some 0) = false := by
  exact ⟨by decide, by decide⟩

/-- `finish_call` passes the loop-iteration ghost counter through. -/
theorem finish_call_iters (d : Dev) (app : Nat) (rnn : Bool) (hint : Nat)
    (st : TransportStatus) (log : List Op) (iters : Nat) :
    (finish_call d app rnn hint st log iters).iters = iters := by
  unfold finish_call
  rcases receive_reply d app st hint log with ⟨rres, rlen, bytes, log2⟩
  dsimp only
  rcases clear_status d app log2 with ⟨e1, log3⟩
  rcases clear_status d app log with ⟨e2, log4⟩
  dsimp only
  split_ifs <;> rfl

/-- The retry loop's ghost iteration counter never decreases. -/
theorem call_loop_iters_mono (d : Dev) (fuel app params : Nat) (args : Bytes)
    (arg_len : Nat) (rnn : Bool) (hint : Nat) :
    ∀ retries log iters,
      iters ≤ (call_loop d fuel app params args arg_len rnn hint retries log iters).iters := by
  intro retries
  induction retries with
  | zero => intro log iters; simp [call_loop]
  | succ r ih =>
    intro log iters
    rw [call_loop]
    rcases make_ready d app log with ⟨res1, log1⟩
    dsimp only
    by_cases h1 : res1 ≠ APP_SUCCESS
    · simp [h1]
    · rw [if_neg h1]
      rcases send_command d app params args arg_len hint log1 with ⟨res2, log2⟩
      dsimp only
      by_cases h2 : res2 ≠ APP_SUCCESS
      · simp [h2]
      · rw [if_neg h2]
        rcases poll_until_done d app fuel log2 with ⟨pr, log3⟩
        cases pr with
        | fuelOut => simp
        | ioErr => simp
        | done code st =>
          dsimp only
          by_cases hc : code = APP_SUCCESS
          · rw [if_pos hc, finish_call_iters]
            omega
          · rw [if_neg hc]
            by_cases hk : code ≠ APP_ERROR_CHECKSUM
            · simp [hk]
            · rw [if_neg hk]
              exact le_trans (by omega) (ih log3 (iters + 1))

/-- One executed iteration of the retry loop bumps the ghost counter. -/
theorem call_loop_iters_lb (d : Dev) (fuel app params : Nat) (args : Bytes)
    (arg_len : Nat) (rnn : Bool) (hint : Nat) (r : Nat) (log : List Op) (iters : Nat) :
    iters + 1 ≤ (call_loop d fuel app params args arg_len rnn hint (r + 1) log iters).iters := by
  rw [call_loop]
  rcases make_ready d app log with ⟨res1, log1⟩
  dsimp only
  by_cases h1 : res1 ≠ APP_SUCCESS
  · simp [h1]
  · rw [if_neg h1]
    rcases send_command d app params args arg_len hint log1 with ⟨res2, log2⟩
    dsimp only
    by_cases h2 : res2 ≠ APP_SUCCESS
    · simp [h2]
    · rw [if_neg h2]
      rcases poll_until_done d app fuel log2 with ⟨pr, log3⟩
      cases pr with
      | fuelOut => simp
      | ioErr => simp
      | done code st =>
        dsimp only
        by_cases hc : code = APP_SUCCESS
        · rw [if_pos hc, finish_call_iters]
        · rw [if_neg hc]
          by_cases hk : code ≠ APP_ERROR_CHECKSUM
          · simp [hk]
          · rw [if_neg hk]
            exact call_loop_iters_mono d fuel app params args arg_len rnn hint r log3 (iters + 1)

/-- C5 (amended): the pre-check of `nos_call_application` accepts an
input exactly when a non-zero `arg_len` comes with a non-null `args`,
a reply-length pointer is supplied, and a non-zero reply capacity
comes with a non-null reply buffer; a rejected input returns
`APP_ERROR_IO` with an empty operation log (no device I/O), and an
accepted input proceeds into the call state machine (at least one
retry-loop iteration runs). -/
theorem input_validation_amended (d : Dev) (fuel app params : Nat) (args : Option Bytes)
    (arg_len : Nat) (replyNonNull : Bool) (reply_len : Option Nat) :
    (call_precheck_reject args arg_len replyNonNull reply_len = false ↔
      ((arg_len ≠ 0 → args ≠ none) ∧ reply_len ≠ none ∧
        (reply_len.getD 0 ≠ 0 → replyNonNull = true))) ∧
    (call_precheck_reject args arg_len replyNonNull reply_len = true →
      nos_call_application d fuel app params args arg_len replyNonNull reply_len =
        ⟨some APP_ERROR_IO, reply_len, [], [], none, 0⟩) ∧
    (call_precheck_reject args arg_len replyNonNull reply_len = false →
      nos_call_application d fuel app params args arg_len replyNonNull reply_len =
        call_loop d fuel app params (args.getD []) arg_len replyNonNull (reply_len.getD 0)
          CRC_RETRY_COUNT [] 0 ∧
      1 ≤ (nos_call_application d fuel app params args arg_len replyNonNull reply_len).iters) := by
  refine ⟨?_, ?_, ?_⟩
  · cases args <;> cases reply_len <;> cases replyNonNull <;>
      simp [call_precheck_reject]
  · intro h
    unfold nos_call_application
    rw [h]
    rfl
  · intro h
    have heq : nos_call_application d fuel app params args arg_len replyNonNull reply_len =
        call_loop d fuel app params (args.getD []) arg_len replyNonNull (reply_len.getD 0)
          CRC_RETRY_COUNT [] 0 := by
      unfold nos_call_application
      rw [h]
      rfl
    refine ⟨heq, ?_⟩
    rw [heq]
    exact call_loop_iters_lb d fuel app params (args.getD []) arg_len replyNonNull
      (reply_len.getD 0) 2 [] 0

/-- C5 witness: the amended statement's accepted case at a concrete
valid input. -/
theorem input_validation_amended_witness :
    nos_call_application devAccept 2 0 0 (some [1]) 1 true (some 4) =
      call_loop devAccept 2 0 0 [1] 1 true 4 CRC_RETRY_COUNT [] 0 ∧
    1 ≤ (nos_call_application devAccept 2 0 0 (some [1]) 1 true (some 4)).iters :=
  (input_validation_amended devAccept 2 0 0 (some [1]) 1 true (some 4)).2.2 (by decide)

/-! ## Claim C8 -/

/-- C8: the updater writes slot A with the image size from A's header;
on `APP_SUCCESS` it returns success without any slot-B flash call,
otherwise it writes slot B with B's own header's size and returns
slot B's result (so when both slots fail the returned error is B's). -/
theorem ab_slot_fallback (call : Nat → Bytes → Nat) (image : Bytes) (hsz : Nat → Nat)
    (oA oB : Nat) (hA : 0 < hsz oA) (hB : 0 < hsz oB) :
    (∃ vA, (try_update call 0 image oA (hsz oA)).1 = some vA) ∧
    (∃ vB, (try_update call (try_update call 0 image oA (hsz oA)).2.1
      image oB (hsz oB)).1 = some vB) ∧
    ((try_update call 0 image oA (hsz oA)).1 = some APP_SUCCESS →
      do_update call image hsz oA oB =
        (some APP_SUCCESS, (try_update call 0 image oA (hsz oA)).2.2)) ∧
    ((try_update call 0 image oA (hsz oA)).1 ≠ some APP_SUCCESS →
      do_update call image hsz oA oB =
        ((try_update call (try_update call 0 image oA (hsz oA)).2.1 image oB (hsz oB)).1,
          (try_update call 0 image oA (hsz oA)).2.2 ++
            (try_update call (try_update call 0 image oA (hsz oA)).2.1
              image oB (hsz oB)).2.2)) := by
  refine ⟨try_update_pos_some call 0 image oA (hsz oA) hA,
    try_update_pos_some call _ image oB (hsz oB) hB, ?_, ?_⟩
  · intro h
    unfold do_update
    rcases hA2 : try_update call 0 image oA (hsz oA) with ⟨rvA, idxA, logA⟩
    rw [hA2] at h
    dsimp only
    rw [if_pos (by simpa using h)]
    have h2 : rvA = some APP_SUCCESS := by simpa using h
    rw [h2]
  · intro h
    unfold do_update
    rcases hA2 : try_update call 0 image oA (hsz oA) with ⟨rvA, idxA, logA⟩
    rw [hA2] at h
    dsimp only
    rw [if_neg (by simpa using h)]

/-- C8 witness: slot A succeeds at once, so the updater returns
success after writing only slot A's bank. -/
theorem ab_slot_fallback_witness :
    (0 : Nat) < hszW 0 ∧
    ((try_update callOk 0 imageW 0 (hszW 0)).1 = some APP_SUCCESS →
      do_update callOk imageW hszW 0 CHIP_FLASH_BANK_SIZE =
        (some APP_SUCCESS, (try_update callOk 0 imageW 0 (hszW 0)).2.2)) :=
  ⟨by decide,
    (ab_slot_fallback callOk imageW hszW 0 CHIP_FLASH_BANK_SIZE (by decide) (by decide)).2.2.1⟩

/-! ## Claim C3 -/

/-- The retry loop's ghost iteration counter is bounded by the retry
budget. -/
theorem call_loop_iters_ub (d : Dev) (fuel app params : Nat) (args : Bytes)
    (arg_len : Nat) (rnn : Bool) (hint : Nat) :
    ∀ retries log iters,
      (call_loop d fuel app params args arg_len rnn hint retries log iters).iters ≤
        iters + retries := by
  intro retries
  induction retries with
  | zero => intro log iters; simp [call_loop]
  | succ r ih =>
    intro log iters
    rw [call_loop]
    rcases make_ready d app log with ⟨res1, log1⟩
    dsimp only
    by_cases h1 : res1 ≠ APP_SUCCESS
    · simp [h1]
    · rw [if_neg h1]
      rcases send_command d app params args arg_len hint log1 with ⟨res2, log2⟩
      dsimp only
      by_cases h2 : res2 ≠ APP_SUCCESS
      · simp [h2]
      · rw [if_neg h2]
        rcases poll_until_done d app fuel log2 with ⟨pr, log3⟩
        cases pr with
        | fuelOut => simp
        | ioErr => simp
        | done code st =>
          dsimp only
          by_cases hc : code = APP_SUCCESS
          · rw [if_pos hc, finish_call_iters]
            omega
          · rw [if_neg hc]
            by_cases hk : code ≠ APP_ERROR_CHECKSUM
            · simp [hk]
            · rw [if_neg hk]
              exact le_trans (ih log3 (iters + 1)) (by omega)

theorem flash_retry_le (call : Nat → Bytes → Nat) :
    ∀ r idx data, (flash_retry call idx data r).2 ≤ r + 1 := by
  intro r
  induction r with
  | zero => intro idx data; simp [flash_retry]
  | succ r ih =>
    intro idx data
    rw [flash_retry]
    dsimp only
    split
    · rcases h : flash_retry call (idx + 1) data r with ⟨rv, n⟩
      have := ih (idx + 1) data
      rw [h] at this
      simpa using this
    · simp

theorem flash_retry_exhaust (call : Nat → Bytes → Nat)
    (h : ∀ i q, call i q = NUGGET_ERROR_RETRY) :
    ∀ r idx data, flash_retry call idx data r = (NUGGET_ERROR_RETRY, r + 1) := by
  intro r
  induction r with
  | zero => intro idx data; simp [flash_retry, h]
  | succ r ih =>
    intro idx data
    rw [flash_retry]
    simp [h, ih]

/-- C3: every retry loop is bounded by its stated constant.  The
datagram layer attempts a read or write at most `RETRY_COUNT = 25`
times and returns `ETIMEDOUT` (after exactly 25 attempts) when the
device keeps answering `-EAGAIN`; the call layer runs at most
`CRC_RETRY_COUNT = 3` iterations in total and a device that always
reports `APP_ERROR_CHECKSUM` yields `APP_ERROR_IO` after exactly 3
iterations; the block updater's per-block retry loop calls the app at
most 4 times and a device that always reports `NUGGET_ERROR_RETRY` is
called exactly 4 times. -/
theorem bounded_retry_limits :
    (∀ (d : Dev) (c : Nat) (p : Bytes) (log : List Op),
      (nos_device_write d c p log).2.length ≤ log.length + RETRY_COUNT ∧
      ((∀ i, d.write i c p = -EAGAIN) →
        nos_device_write d c p log =
          (ETIMEDOUT, log ++ List.replicate RETRY_COUNT (Op.wr c p)))) ∧
    (∀ (d : Dev) (c n : Nat) (log : List Op),
      (nos_device_read d c n log).2.2.length ≤ log.length + RETRY_COUNT ∧
      ((∀ i, d.read i c n = (-EAGAIN, [])) →
        nos_device_read d c n log =
          (ETIMEDOUT, [], log ++ List.replicate RETRY_COUNT (Op.rd c n)))) ∧
    (∀ (d : Dev) (fuel app params : Nat) (args : Option Bytes) (arg_len : Nat)
      (rnn : Bool) (rlen : Option Nat),
      (nos_call_application d fuel app params args arg_len rnn rlen).iters ≤
        CRC_RETRY_COUNT) ∧
    ((nos_call_application devLegacyChecksum 8 0 0 none 0 false (some 0)).res =
        some APP_ERROR_IO ∧
      (nos_call_application devLegacyChecksum 8 0 0 none 0 false (some 0)).iters = 3) ∧
    (∀ (call : Nat → Bytes → Nat) (idx : Nat) (data : Bytes),
      (flash_retry call idx data 3).2 ≤ 4 ∧
      ((∀ i q, call i q = NUGGET_ERROR_RETRY) →
        flash_retry call idx data 3 = (NUGGET_ERROR_RETRY, 4))) := by
  refine ⟨?_, ?_, ?_, ⟨by decide, by decide⟩, ?_⟩
  · intro d c p log
    exact ⟨nos_device_write_loop_len d c p RETRY_COUNT log,
      fun h => nos_device_write_loop_eagain d c p h RETRY_COUNT log⟩
  · intro d c n log
    exact ⟨nos_device_read_loop_len d c n RETRY_COUNT log,
      fun h => nos_device_read_loop_eagain d c n h RETRY_COUNT log⟩
  · intro d fuel app params args arg_len rnn rlen
    unfold nos_call_application
    by_cases hpre : call_precheck_reject args arg_len rnn rlen
    · rw [if_pos hpre]
      simp [CRC_RETRY_COUNT]
    · rw [if_neg hpre]
      exact le_trans
        (call_loop_iters_ub d fuel app params (args.getD []) arg_len rnn (rlen.getD 0)
          CRC_RETRY_COUNT [] 0) (by simp)
  · intro call idx data
    exact ⟨flash_retry_le call 3 idx data,
      fun h => flash_retry_exhaust call h 3 idx data⟩

/-- C3 witness: the bounds evaluated against a permanently sleeping
device, an always-checksum-failing device and an always-retrying
flash oracle. -/
theorem bounded_retry_limits_witness :
    nos_device_write devSleepy 5 [] [] =
      (ETIMEDOUT, [] ++ List.replicate RETRY_COUNT (Op.wr 5 [])) ∧
    nos_device_read devSleepy 5 16 [] =
      (ETIMEDOUT, [], [] ++ List.replicate RETRY_COUNT (Op.rd 5 16)) ∧
    (nos_call_application devAccept 2 0 0 none 0 false (some 0)).iters ≤
      CRC_RETRY_COUNT ∧
    flash_retry callRetry 0 [] 3 = (NUGGET_ERROR_RETRY, 4) :=
  ⟨(bounded_retry_limits.1 devSleepy 5 [] []).2 (fun _ => rfl),
    (bounded_retry_limits.2.1 devSleepy 5 16 []).2 (fun _ => rfl),
    bounded_retry_limits.2.2.1 devAccept 2 0 0 none 0 false (some 0),
    (bounded_retry_limits.2.2.2.2 callRetry 0 []).2 (fun _ _ => rfl)⟩

/-! ## Claim C4 -/

/-- A successful status read whose record lacks the magic is parsed as
the legacy framing in a single bus read: `status` and `reply_len` are
taken from the legacy layout and `version` is set to
`TRANSPORT_LEGACY`, with no CRC comparison and no retry. -/
theorem get_status_legacy (d : Dev) (app : Nat) (log : List Op) (b : Bytes)
    (hr : d.read log.length (statusReadCmd app) STATUS_SIZE = (0, b))
    (hm : le32 (devReadBuf b STATUS_SIZE) 0 ≠ TRANSPORT_STATUS_MAGIC) :
    get_status d app log =
      (.ok ⟨0, TRANSPORT_LEGACY, 0, le32 (devReadBuf b STATUS_SIZE) 0,
        le16 (devReadBuf b STATUS_SIZE) 4, 0⟩,
       log ++ [Op.rd (statusReadCmd app) STATUS_SIZE]) := by
  unfold get_status
  rw [CRC_RETRY_COUNT, show (3 : Nat) = 2 + 1 from rfl]
  simp only [get_status_loop]
  rw [nos_device_read_ok d _ _ log b hr]
  dsimp only
  rw [if_neg (by decide : ¬((0 : Int) ≠ 0)), if_pos hm]

theorem receive_chunks_f_irrel (d : Dev) : ∀ f1 f2 (cmd crcAcc left : Nat) (log : List Op),
    left < f1 → left < f2 →
    receive_chunks_f d f1 cmd crcAcc left log = receive_chunks_f d f2 cmd crcAcc left log := by
  intro f1
  induction f1 with
  | zero => intro f2 cmd crcAcc left log h1 _; exact absurd h1 (by omega)
  | succ g ih =>
    intro f2 cmd crcAcc left log h1 h2
    cases f2 with
    | zero => exact absurd h2 (by omega)
    | succ f =>
      simp only [receive_chunks_f]
      by_cases hz : left = 0
      · simp [hz]
      · rw [if_neg hz, if_neg hz]
        rcases hr : nos_device_read d cmd (min left MAX_DEVICE_TRANSFER) log with ⟨err, b, log2⟩
        dsimp only
        by_cases he : err ≠ 0
        · simp [he]
        · rw [if_neg he, if_neg he]
          rw [ih f (orMore cmd) (crc16_update b crcAcc) (left - min left MAX_DEVICE_TRANSFER)
              log2 (by simp only [MAX_DEVICE_TRANSFER] at *; omega)
              (by simp only [MAX_DEVICE_TRANSFER] at *; omega)]

/-- With a device whose reads always succeed, one reply pass succeeds
and performs exactly `⌈left / MAX_DEVICE_TRANSFER⌉` bus reads. -/
theorem receive_chunks_ok (d : Dev) (hok : ∀ i c l, (d.read i c l).1 = 0) :
    ∀ f (cmd crcAcc left : Nat) (log : List Op), left < f →
      (receive_chunks_f d f cmd crcAcc left log).1 = true ∧
      (receive_chunks_f d f cmd crcAcc left log).2.2.2.length =
        log.length + (left + MAX_DEVICE_TRANSFER - 1) / MAX_DEVICE_TRANSFER := by
  intro f
  induction f with
  | zero => intro cmd crcAcc left log h1; exact absurd h1 (by omega)
  | succ g ih =>
    intro cmd crcAcc left log h1
    simp only [receive_chunks_f]
    by_cases hz : left = 0
    · subst hz
      simp [MAX_DEVICE_TRANSFER]
    · rw [if_neg hz]
      have hr : d.read log.length cmd (min left MAX_DEVICE_TRANSFER) =
          (0, (d.read log.length cmd (min left MAX_DEVICE_TRANSFER)).2) :=
        Prod.ext (hok _ _ _) rfl
      rw [nos_device_read_ok d cmd (min left MAX_DEVICE_TRANSFER) log _ hr]
      dsimp only
      rw [if_neg (by decide : ¬((0 : Int) ≠ 0))]
      rcases hrec : receive_chunks_f d g (orMore cmd)
          (crc16_update (devReadBuf (d.read log.length cmd (min left MAX_DEVICE_TRANSFER)).2
            (min left MAX_DEVICE_TRANSFER)) crcAcc)
          (left - min left MAX_DEVICE_TRANSFER)
          (log ++ [Op.rd cmd (min left MAX_DEVICE_TRANSFER)]) with ⟨ok2, crc2, rest2, log2⟩
      have hih := ih (orMore cmd)
        (crc16_update (devReadBuf (d.read log.length cmd (min left MAX_DEVICE_TRANSFER)).2
          (min left MAX_DEVICE_TRANSFER)) crcAcc)
        (left - min left MAX_DEVICE_TRANSFER)
        (log ++ [Op.rd cmd (min left MAX_DEVICE_TRANSFER)])
        (by simp only [MAX_DEVICE_TRANSFER] at *; omega)
      rw [hrec] at hih
      dsimp only
      refine ⟨by simpa using hih.1, ?_⟩
      have := hih.2
      simp only [List.length_append, List.length_singleton] at this ⊢
      simp only [MAX_DEVICE_TRANSFER] at *
      omega

/-- For a legacy status record, `receive_reply` accepts the reply on
its first pass: it returns `APP_SUCCESS`, stores `min cap reply_len`
into `*reply_len`, performs exactly `⌈min cap reply_len / MTU⌉` bus
reads, and neither compares nor reads the `reply_crc` field (the
outcome is identical for any value of `reply_crc`). -/
theorem receive_reply_legacy (d : Dev) (app : Nat) (st : TransportStatus) (rlen : Nat)
    (log : List Op) (hver : st.version = TRANSPORT_LEGACY)
    (hok : ∀ i c l, (d.read i c l).1 = 0) :
    (receive_reply d app st rlen log).1 = APP_SUCCESS ∧
    (receive_reply d app st rlen log).2.1 = min rlen st.reply_len ∧
    (receive_reply d app st rlen log).2.2.2.length =
      log.length +
        (min rlen st.reply_len + MAX_DEVICE_TRANSFER - 1) / MAX_DEVICE_TRANSFER ∧
    (∀ x, receive_reply d app { st with reply_crc := x } rlen log =
      receive_reply d app st rlen log) := by
  have hchunk := receive_chunks_ok d hok (min rlen st.reply_len + 1) (replyReadCmd app) 0
    (min rlen st.reply_len) log (by omega)
  refine ⟨?_, ?_, ?_, ?_⟩
  · unfold receive_reply
    rw [CRC_RETRY_COUNT, show (3 : Nat) = 2 + 1 from rfl]
    simp only [receive_reply_loop]
    unfold receive_chunks
    rcases hrec : receive_chunks_f d (min rlen st.reply_len + 1) (replyReadCmd app) 0
        (min rlen st.reply_len) log with ⟨ok2, crc2, bytes2, log2⟩
    rw [hrec] at hchunk
    dsimp only
    rw [show ok2 = true from hchunk.1]
    rw [if_neg (by decide : ¬(!true) = true), if_pos hver]
  · unfold receive_reply
    rw [CRC_RETRY_COUNT, show (3 : Nat) = 2 + 1 from rfl]
    simp only [receive_reply_loop]
    unfold receive_chunks
    rcases hrec : receive_chunks_f d (min rlen st.reply_len + 1) (replyReadCmd app) 0
        (min rlen st.reply_len) log with ⟨ok2, crc2, bytes2, log2⟩
    rw [hrec] at hchunk
    dsimp only
    rw [show ok2 = true from hchunk.1]
    rw [if_neg (by decide : ¬(!true) = true), if_pos hver]
  · unfold receive_reply
    rw [CRC_RETRY_COUNT, show (3 : Nat) = 2 + 1 from rfl]
    simp only [receive_reply_loop]
    unfold receive_chunks
    rcases hrec : receive_chunks_f d (min rlen st.reply_len + 1) (replyReadCmd app) 0
        (min rlen st.reply_len) log with ⟨ok2, crc2, bytes2, log2⟩
    rw [hrec] at hchunk
    dsimp only
    rw [show ok2 = true from hchunk.1]
    rw [if_neg (by decide : ¬(!true) = true), if_pos hver]
    exact hchunk.2
  · intro x
    unfold receive_reply
    rw [CRC_RETRY_COUNT, show (3 : Nat) = 2 + 1 from rfl]
    simp only [receive_reply_loop]
    unfold receive_chunks
    rcases hrec : receive_chunks_f d (min rlen st.reply_len + 1) (replyReadCmd app) 0
        (min rlen st.reply_len) log with ⟨ok2, crc2, bytes2, log2⟩
    rw [hrec] at hchunk
    dsimp only
    rw [show ok2 = true from hchunk.1]
    rw [if_neg (by decide : ¬(!true) = true), if_pos hver, if_pos hver]
    simp

/-- C4: a status record whose magic differs from
`TRANSPORT_STATUS_MAGIC` is parsed as the legacy framing (mapping its
`status` and `reply_len` into the V1-shaped output with
`version = TRANSPORT_LEGACY`) in a single read with no CRC check, and
for such a legacy status the reply is accepted unconditionally: one
pass, `APP_SUCCESS`, no reply-read retry, and the outcome does not
depend on the `reply_crc` field. -/
theorem legacy_detection_no_crc :
    (∀ (d : Dev) (app : Nat) (log : List Op) (b : Bytes),
      d.read log.length (statusReadCmd app) STATUS_SIZE = (0, b) →
      le32 (devReadBuf b STATUS_SIZE) 0 ≠ TRANSPORT_STATUS_MAGIC →
      get_status d app log =
        (.ok ⟨0, TRANSPORT_LEGACY, 0, le32 (devReadBuf b STATUS_SIZE) 0,
          le16 (devReadBuf b STATUS_SIZE) 4, 0⟩,
         log ++ [Op.rd (statusReadCmd app) STATUS_SIZE])) ∧
    (∀ (d : Dev) (app : Nat) (st : TransportStatus) (rlen : Nat) (log : List Op),
      st.version = TRANSPORT_LEGACY →
      (∀ i c l, (d.read i c l).1 = 0) →
      (receive_reply d app st rlen log).1 = APP_SUCCESS ∧
      (receive_reply d app st rlen log).2.1 = min rlen st.reply_len ∧
      (receive_reply d app st rlen log).2.2.2.length =
        log.length +
          (min rlen st.reply_len + MAX_DEVICE_TRANSFER - 1) / MAX_DEVICE_TRANSFER ∧
      (∀ x, receive_reply d app { st with reply_crc := x } rlen log =
        receive_reply d app st rlen log)) :=
  ⟨fun d app log b hr hm => get_status_legacy d app log b hr hm,
   fun d app st rlen log hv hok => receive_reply_legacy d app st rlen log hv hok⟩

/-- C4 witness: a concrete legacy status read and a concrete legacy
reply read with two different `reply_crc` values. -/
theorem legacy_detection_no_crc_witness :
    get_status devLegacyError 0 [] =
      (.ok ⟨0, TRANSPORT_LEGACY, 0, le32 (devReadBuf (List.replicate 16 0) STATUS_SIZE) 0,
        le16 (devReadBuf (List.replicate 16 0) STATUS_SIZE) 4, 0⟩,
       [] ++ [Op.rd (statusReadCmd 0) STATUS_SIZE]) ∧
    (receive_reply devAccept 0 ⟨0, TRANSPORT_LEGACY, 0, 2147483648, 5, 77⟩ 3 []).1 =
      APP_SUCCESS ∧
    receive_reply devAccept 0 ⟨0, TRANSPORT_LEGACY, 0, 2147483648, 5, 99⟩ 3 [] =
      receive_reply devAccept 0 ⟨0, TRANSPORT_LEGACY, 0, 2147483648, 5, 77⟩ 3 [] :=
  ⟨legacy_detection_no_crc.1 devLegacyError 0 [] (List.replicate 16 0) rfl (by decide),
   (legacy_detection_no_crc.2 devAccept 0 ⟨0, TRANSPORT_LEGACY, 0, 2147483648, 5, 77⟩ 3 []
      rfl (fun _ _ _ => rfl)).1,
   (legacy_detection_no_crc.2 devAccept 0 ⟨0, TRANSPORT_LEGACY, 0, 2147483648, 5, 77⟩ 3 []
      rfl (fun _ _ _ => rfl)).2.2.2 99⟩

/-! ## Claims C2 and C9 -/

/-- The post-poll section always reports the poll's final status
record in the ghost field. -/
theorem finish_call_finalStatus (d : Dev) (app : Nat) (rnn : Bool) (hint : Nat)
    (st : TransportStatus) (log : List Op) (iters : Nat) :
    (finish_call d app rnn hint st log iters).finalStatus = some st := by
  unfold finish_call
  rcases receive_reply d app st hint log with ⟨rres, rlen, bytes, log2⟩
  dsimp only
  rcases clear_status d app log2 with ⟨e1, log3⟩
  rcases clear_status d app log with ⟨e2, log4⟩
  dsimp only
  split_ifs <;> rfl

/-- When no reply is read (null buffer, zero capacity or zero device
reply length), the post-poll section stores 0 into `*reply_len`. -/
theorem finish_call_rlen_zero (d : Dev) (app : Nat) (rnn : Bool) (hint : Nat)
    (st : TransportStatus) (log : List Op) (iters : Nat)
    (h : ¬(rnn = true ∧ hint ≠ 0 ∧ st.reply_len ≠ 0)) :
    (finish_call d app rnn hint st log iters).reply_len_out = some 0 := by
  unfold finish_call
  rw [if_neg h]

/-- When the post-poll section returns `APP_SUCCESS`, the last bus
operation it performed is the clear-status write. -/
theorem finish_call_success_clear (d : Dev) (app : Nat) (rnn : Bool) (hint : Nat)
    (st : TransportStatus) (log : List Op) (iters : Nat)
    (h : (finish_call d app rnn hint st log iters).res = some APP_SUCCESS) :
    ∃ pre, (finish_call d app rnn hint st log iters).log =
      pre ++ [Op.wr (clearStatusCmd app) []] := by
  unfold finish_call at h ⊢
  rcases hr : receive_reply d app st hint log with ⟨rres, rlen, bytes, log2⟩
  rw [hr] at h
  dsimp only at h ⊢
  by_cases hc : (rnn = true ∧ hint ≠ 0 ∧ st.reply_len ≠ 0)
  · rw [if_pos hc] at h ⊢
    by_cases hres : rres ≠ APP_SUCCESS
    · rw [if_pos hres] at h
      dsimp only at h
      exact absurd (Option.some.inj h) hres
    · rw [if_neg hres] at h ⊢
      obtain ⟨pre, hp⟩ := clear_status_last d app log2
      rcases hcl : clear_status d app log2 with ⟨e1, log3⟩
      rw [hcl] at hp
      dsimp only
      exact ⟨pre, hp⟩
  · rw [if_neg hc] at h ⊢
    obtain ⟨pre, hp⟩ := clear_status_last d app log
    rcases hcl : clear_status d app log with ⟨e2, log4⟩
    rw [hcl] at hp
    dsimp only
    exact ⟨pre, hp⟩

/-- A call-loop run that returns `APP_SUCCESS` went through the
post-poll section `finish_call`. -/
theorem call_loop_success_finish (d : Dev) (fuel app params : Nat) (args : Bytes)
    (arg_len : Nat) (rnn : Bool) (hint : Nat) :
    ∀ retries log iters,
      (call_loop d fuel app params args arg_len rnn hint retries log iters).res =
        some APP_SUCCESS →
      ∃ st log2 iters2,
        call_loop d fuel app params args arg_len rnn hint retries log iters =
          finish_call d app rnn hint st log2 iters2 := by
  intro retries
  induction retries with
  | zero =>
    intro log iters h
    rw [call_loop] at h
    dsimp only at h
    exact absurd (Option.some.inj h) (by decide)
  | succ r ih =>
    intro log iters h
    rw [call_loop] at h ⊢
    rcases hm : make_ready d app log with ⟨res1, log1⟩
    rw [hm] at h
    dsimp only at h ⊢
    by_cases h1 : res1 ≠ APP_SUCCESS
    · rw [if_pos h1] at h
      dsimp only at h
      exact absurd (Option.some.inj h) h1
    · rw [if_neg h1] at h ⊢
      rcases hs : send_command d app params args arg_len hint log1 with ⟨res2, log2⟩
      rw [hs] at h
      dsimp only at h ⊢
      by_cases h2 : res2 ≠ APP_SUCCESS
      · rw [if_pos h2] at h
        dsimp only at h
        exact absurd (Option.some.inj h) h2
      · rw [if_neg h2] at h ⊢
        rcases hp : poll_until_done d app fuel log2 with ⟨pr, log3⟩
        rw [hp] at h
        cases pr with
        | fuelOut => exact absurd h (by simp)
        | ioErr =>
          dsimp only at h
          exact absurd (Option.some.inj h) (by decide)
        | done code st =>
          dsimp only at h ⊢
          by_cases hc : code = APP_SUCCESS
          · rw [if_pos hc] at h ⊢
            exact ⟨st, log3, iters + 1, rfl⟩
          · rw [if_neg hc] at h ⊢
            by_cases hk : code ≠ APP_ERROR_CHECKSUM
            · rw [if_pos hk] at h
              dsimp only at h
              exact absurd (Option.some.inj h) hc
            · rw [if_neg hk] at h ⊢
              exact ih log3 (iters + 1) h

/-- C2 counterexample: a call that fails (the app reports
`APP_ERROR_BOGUS_ARGS`) returns without issuing any clear-status
write: the device is not returned to `APP_STATUS_IDLE` by this call. -/
theorem clear_status_error_path_cex :
    (nos_call_application devLegacyError 8 0 0 none 0 false (some 0)).res =
      some APP_ERROR_BOGUS_ARGS ∧
    some APP_ERROR_BOGUS_ARGS ≠ some APP_SUCCESS ∧
    Op.wr (clearStatusCmd 0) [] ∉
      (nos_call_application devLegacyError 8 0 0 none 0 false (some 0)).log := by
  refine ⟨by decide, by decide, by decide⟩

/-- C2 (amended): after every call through `nos_call_application` that
returns `APP_SUCCESS`, a clear-status write has been issued as the
final bus operation (so a subsequent status read sees
`APP_STATUS_IDLE`); calls that return an error may return without
clearing, leaving the clear to the next call's make-ready phase. -/
theorem clear_status_success_path (d : Dev) (fuel app params : Nat) (args : Option Bytes)
    (arg_len : Nat) (rnn : Bool) (rlen : Option Nat)
    (h : (nos_call_application d fuel app params args arg_len rnn rlen).res =
      some APP_SUCCESS) :
    ∃ pre, (nos_call_application d fuel app params args arg_len rnn rlen).log =
      pre ++ [Op.wr (clearStatusCmd app) []] := by
  unfold nos_call_application at h ⊢
  by_cases hpre : call_precheck_reject args arg_len rnn rlen
  · rw [if_pos hpre] at h
    dsimp only at h
    exact absurd (Option.some.inj h) (by decide)
  · rw [if_neg hpre] at h ⊢
    obtain ⟨st, log2, iters2, heq⟩ := call_loop_success_finish d fuel app params
      (args.getD []) arg_len rnn (rlen.getD 0) CRC_RETRY_COUNT [] 0 h
    rw [heq] at h ⊢
    exact finish_call_success_clear d app rnn (rlen.getD 0) st log2 iters2 h

/-- C2 witness: a successful call against a concrete legacy device
ends its operation log with the clear-status write. -/
theorem clear_status_success_path_witness :
    (nos_call_application devLegacySuccess 8 0 0 none 0 false (some 0)).res =
      some APP_SUCCESS ∧
    ∃ pre, (nos_call_application devLegacySuccess 8 0 0 none 0 false (some 0)).log =
      pre ++ [Op.wr (clearStatusCmd 0) []] :=
  ⟨by decide,
    clear_status_success_path devLegacySuccess 8 0 0 none 0 false (some 0) (by decide)⟩

/-- C9: whenever `nos_call_application` completes the polling phase
successfully (returns `APP_SUCCESS`) but reads no reply — the caller
supplied no reply buffer, the caller's capacity is zero, or the device
reported `reply_len = 0` — it stores 0 behind the caller's
reply-length pointer. -/
theorem reply_len_zeroed (d : Dev) (fuel app params : Nat) (args : Option Bytes)
    (arg_len : Nat) (rnn : Bool) (rlen : Option Nat)
    (hres : (nos_call_application d fuel app params args arg_len rnn rlen).res =
      some APP_SUCCESS)
    (hany : rnn = false ∨ rlen = some 0 ∨
      (∃ st, (nos_call_application d fuel app params args arg_len rnn rlen).finalStatus =
          some st ∧ st.reply_len = 0)) :
    (nos_call_application d fuel app params args arg_len rnn rlen).reply_len_out =
      some 0 := by
  unfold nos_call_application at hres hany ⊢
  by_cases hpre : call_precheck_reject args arg_len rnn rlen
  · rw [if_pos hpre] at hres
    dsimp only at hres
    exact absurd (Option.some.inj hres) (by decide)
  · rw [if_neg hpre] at hres hany ⊢
    obtain ⟨st, log2, iters2, heq⟩ := call_loop_success_finish d fuel app params
      (args.getD []) arg_len rnn (rlen.getD 0) CRC_RETRY_COUNT [] 0 hres
    rw [heq] at hany ⊢
    apply finish_call_rlen_zero
    rintro ⟨hr, hh, hrl⟩
    rcases hany with h | h | ⟨st2, hst2, hrl2⟩
    · rw [h] at hr
      exact Bool.noConfusion hr
    · rw [h] at hh
      exact hh rfl
    · rw [finish_call_finalStatus] at hst2
      rw [Option.some.inj hst2] at hrl
      exact hrl hrl2

/-- C9 witness: a successful call with a reply buffer and non-zero
capacity against a device reporting `reply_len = 0` stores 0 in
`*reply_len`. -/
theorem reply_len_zeroed_witness :
    (nos_call_application devLegacySuccess 8 0 0 none 0 true (some 16)).res =
      some APP_SUCCESS ∧
    (nos_call_application devLegacySuccess 8 0 0 none 0 true (some 16)).reply_len_out =
      some 0 :=
  ⟨by decide,
    reply_len_zeroed devLegacySuccess 8 0 0 none 0 true (some 16) (by decide)
      (Or.inr (Or.inr ⟨⟨0, TRANSPORT_LEGACY, 0, 2147483648, 0, 0⟩, by decide, rfl⟩))⟩
